import Mathlib

/-!
Verification of the dcli activity store and sync engine.

This file gives a shallow embedding of the core of the repository:

* `src/dcli/src/activitystoreinterface.rs` — the sqlite-backed activity
  store (`ActivityStoreInterface`): queue-driven sync, transactional
  per-activity insert, and the retrieval/projection queries;
* `src/dcli/src/manifestinterface.rs` — the `convert_hash_to_id`
  conversion used by the manifest definition cache.

The sqlite database is modelled as a `Store` of per-table row lists; one
connection is a `Db` (store plus a count of mutating statements executed).
Failures of mutating statements are injected through a `FailSet` oracle so
the transaction/rollback structure of the source can be stated and proven.
`BEGIN`/`COMMIT`/`ROLLBACK` and plain `SELECT`s are taken as infallible; a
`fetch_one` finding no row is modelled as a typed not-found error, exactly
as `sqlx::Error::RowNotFound` is in the source.

Scalar stat columns of `character_activity_stats` (kills, deaths, …) and
the `f32` columns (`average_score_per_kill`, the weapon kill ratios) are
copied verbatim from the payload by the source and are mentioned by no
claim, so the embedding carries only the columns the claims inspect
(`character`, `activity`, `team` and the row id); floating-point columns
are not statable in any case.
-/

namespace Dcli

/-! ## Payload data

The shapes below follow the fields of `DestinyPostGameCarnageReportData`
that `_insert_activity` reads.  `DestinyHistoricalStatsActivity` (the
`activity_details` component) is declared in `src/dcli/src/response/activities.rs`.
Mode and platform identifiers are `u32` values produced by `to_id()` in the
source (hence nonnegative); they are carried as `Int` here because the
retrieval filters compare them against the signed sentinel `-1`. -/

/-- One entry of the page returned by `retrieve_activities_since_id`
(`Activity` in `src/dcli/src/response/activities.rs`), restricted to the
fields `_update_activity_queue` reads. -/
structure ActivitySummary where
  director_activity_hash : Nat
  instance_id : Int
deriving Repr, DecidableEq

/-- The `activity_details` component of a post game carnage report
(`DestinyHistoricalStatsActivity`). -/
structure ActivityDetailsData where
  reference_id : Nat
  director_activity_hash : Nat
  instance_id : Int
  mode : Int
  modes : List Int
  membership_type : Int
deriving Repr, DecidableEq

/-- One team block of a carnage report (fields read at
`activitystoreinterface.rs:516-532`). -/
structure TeamEntryData where
  team : Int
  score : Int
  standing : Int
deriving Repr, DecidableEq

/-- One weapon block of a carnage report entry (fields read at
`activitystoreinterface.rs:699-718`; the `f32` kill ratio column is
omitted, see the header). -/
structure WeaponEntryData where
  reference_id : Nat
  unique_weapon_kills : Nat
  unique_weapon_precision_kills : Nat
deriving Repr, DecidableEq

/-- One participant entry of a carnage report
(`DestinyPostGameCarnageReportEntry`), restricted to the fields the insert
path reads.  `medals` is the `extended.values` map (key, `basic.value as u32`);
`team` is `values.team as i32`. -/
structure PgcrEntryData where
  membership_id : String
  membership_type : Int
  display_name : String
  class_hash : Nat
  character_id : String
  team : Int
  medals : List (String × Nat)
  weapons : Option (List WeaponEntryData)
deriving Repr, DecidableEq

/-- A post game carnage report (`DestinyPostGameCarnageReportData`),
restricted to the fields `_insert_activity` reads.  `period` abstracts the
RFC3339 UTC timestamp string: those strings compare lexicographically in
chronological order, so the embedding carries an order-isomorphic `Nat`. -/
structure PgcrData where
  period : Nat
  activity_details : ActivityDetailsData
  teams : List TeamEntryData
  entries : List PgcrEntryData
deriving Repr, DecidableEq

/-- Modelled from the spec: `CharacterClass::from_hash` lives in
`enums/character.rs`, which is not under `src/`.  The class discriminator is
opaque to every claim, so the hash is carried through unchanged. -/
def class_from_hash (h : Nat) : Nat := h

/-! ## The store -/

/-- Row of the `activity` table. -/
structure ActivityRow where
  id : Int
  activity_id : Int
  period : Nat
  mode : Int
  platform : Int
  director_activity_hash : Nat
  reference_id : Nat
deriving Repr, DecidableEq

/-- Row of the `team_result` table. -/
structure TeamResultRow where
  team_id : Int
  score : Int
  standing : Int
  activity : Int
deriving Repr, DecidableEq

/-- Row of the `modes` table. -/
structure ModeRow where
  mode : Int
  activity : Int
deriving Repr, DecidableEq

/-- Row of the `member` table. -/
structure MemberRow where
  id : Int
  member_id : String
  platform_id : Int
  display_name : String
deriving Repr, DecidableEq

/-- Row of the `character` table. -/
structure CharacterRow where
  id : Int
  character_id : String
  member : Int
  class_id : Nat
deriving Repr, DecidableEq

/-- Row of the `character_activity_stats` table (see the header for the
omitted scalar stat columns). -/
structure CasRow where
  id : Int
  character : Int
  activity : Int
  team : Int
deriving Repr, DecidableEq

/-- Row of the `medal_result` table. -/
structure MedalResultRow where
  reference_id : String
  count : Nat
  character_activity_stats : Int
deriving Repr, DecidableEq

/-- Row of the `weapon_result` table (kill-ratio `f32` column omitted). -/
structure WeaponResultRow where
  reference_id : Nat
  kills : Nat
  precision_kills : Nat
  character_activity_stats : Int
deriving Repr, DecidableEq

/-- Row of the `activity_queue` table. -/
structure QueueRow where
  activity_id : Int
  character : Int
deriving Repr, DecidableEq

/-- The activity store.  `next_row_id` supplies fresh autoincrement row
ids (uniqueness across tables is harmless: no claim relates row ids of
different tables).  Uniqueness constraints are modelled from the spec —
the schema SQL (`actitvity_store_schema.sql`) is not under `src/` — as:
`activity.activity_id`, `member.member_id` and `character.character_id`
unique, matching the `INSERT OR IGNORE` / `ON CONFLICT` statements of the
source. -/
structure Store where
  activity : List ActivityRow
  team_result : List TeamResultRow
  modes : List ModeRow
  member : List MemberRow
  character : List CharacterRow
  character_activity_stats : List CasRow
  medal_result : List MedalResultRow
  weapon_result : List WeaponResultRow
  activity_queue : List QueueRow
  next_row_id : Int
deriving Repr, DecidableEq

/-- The empty store. -/
def Store.empty : Store :=
  ⟨[], [], [], [], [], [], [], [], [], 1⟩

/-- One sqlite connection: current store contents plus the number of
mutating statements executed so far (the index into the failure oracle). -/
structure Db where
  store : Store
  stmt : Nat
deriving Repr, DecidableEq

/-- Failure injection: `fail n = true` means the `n`-th mutating statement
issued on the connection reports a sqlite error. -/
def FailSet : Type := Nat → Bool

/-- The always-succeeding oracle. -/
def noFail : FailSet := fun _ => false

/-- Execute one mutating statement: consult the failure oracle, then apply
the row transformation. -/
def exec (fail : FailSet) (f : Store → Store) (db : Db) : Except Unit Db :=
  if fail db.stmt then .error () else .ok ⟨f db.store, db.stmt + 1⟩

/-! ## Store operations (`activitystoreinterface.rs`) -/

/-- SELECT id FROM activity WHERE activity_id = ? with `fetch_one`
(`get_activity_row_id`, lines 742-758): the first matching row's id, or a
row-not-found error. -/
def get_activity_row_id (instance_id : Int) (s : Store) : Except Unit Int :=
  match s.activity.find? (fun r => r.activity_id == instance_id) with
  | some r => .ok r.id
  | none => .error ()

/-- Upsert of the `member` row (`insert_member_id`, lines 787-822): insert,
ON CONFLICT(member_id) update the display name; then fetch the row id. -/
def insert_member_id (fail : FailSet) (member_id : String) (platform_id : Int)
    (display_name : String) (db : Db) : Except Unit (Int × Db) := do
  let db ← exec fail (fun s =>
    if s.member.any (fun m => m.member_id == member_id) then
      { s with member := s.member.map (fun m =>
          if m.member_id == member_id then { m with display_name } else m) }
    else
      { s with
          member := s.member ++ [⟨s.next_row_id, member_id, platform_id, display_name⟩],
          next_row_id := s.next_row_id + 1 }) db
  match db.store.member.find? (fun m => m.member_id == member_id) with
  | some m => .ok (m.id, db)
  | none => .error ()

/-- INSERT OR IGNORE of the `character` row plus id fetch
(`insert_character_id`, lines 824-854). -/
def insert_character_id (fail : FailSet) (character_id : String) (class_id : Nat)
    (member_rowid : Int) (db : Db) : Except Unit (Int × Db) := do
  let db ← exec fail (fun s =>
    if s.character.any (fun c => c.character_id == character_id) then s
    else
      { s with
          character := s.character ++ [⟨s.next_row_id, character_id, member_rowid, class_id⟩],
          next_row_id := s.next_row_id + 1 }) db
  match db.store.character.find? (fun c =>
      c.character_id == character_id && c.member == member_rowid) with
  | some c => .ok (c.id, db)
  | none => .error ()

/-- DELETE FROM activity_queue WHERE character = ? and activity_id = ?
(`remove_from_activity_queue`, lines 724-740). -/
def remove_from_activity_queue (fail : FailSet) (character_row_id instance_id : Int)
    (db : Db) : Except Unit Db :=
  exec fail (fun s =>
    { s with activity_queue := s.activity_queue.filter (fun q =>
        !(q.character == character_row_id && q.activity_id == instance_id)) }) db

/-- Body of the medal-rows loop of `_insert_character_activity_stats`
(lines 679-696): one `medal_result` insert per `extended.values` pair. -/
def medal_insert_step (fail : FailSet) (cas_id : Int) (db : Db)
    (kv : String × Nat) : Except Unit Db :=
  exec fail (fun s =>
    { s with medal_result := s.medal_result ++ [⟨kv.1, kv.2, cas_id⟩] }) db

/-- Body of the weapon-rows loop of `_insert_character_activity_stats`
(lines 698-719): one `weapon_result` insert per weapon block. -/
def weapon_insert_step (fail : FailSet) (cas_id : Int) (db : Db)
    (w : WeaponEntryData) : Except Unit Db :=
  exec fail (fun s =>
    { s with weapon_result := s.weapon_result ++
        [⟨w.reference_id, w.unique_weapon_kills, w.unique_weapon_precision_kills,
          cas_id⟩] }) db

/-- Insert of one participant's `character_activity_stats` row and its medal
and weapon child rows (`_insert_character_activity_stats`, lines 589-722):
insert the stats row, fetch its row id back, then insert the medal rows
and — when the weapons block is present — the weapon rows. -/
def _insert_character_activity_stats (fail : FailSet) (entry : PgcrEntryData)
    (character_row_id activity_row_id : Int) (db : Db) : Except Unit Db := do
  let db ← exec fail (fun s =>
    { s with
        character_activity_stats := s.character_activity_stats ++
          [⟨s.next_row_id, character_row_id, activity_row_id, entry.team⟩],
        next_row_id := s.next_row_id + 1 }) db
  let character_activity_stats_id ←
    match db.store.character_activity_stats.find? (fun r =>
        r.activity == activity_row_id && r.character == character_row_id) with
    | some r => Except.ok r.id
    | none => Except.error ()
  let db ← entry.medals.foldlM
    (medal_insert_step fail character_activity_stats_id) db
  match entry.weapons with
  | some weapons =>
      weapons.foldlM (weapon_insert_step fail character_activity_stats_id) db
  | none => .ok db

/-- Body of the team-rows loop of `_insert_activity` (lines 516-532). -/
def team_insert_step (fail : FailSet) (activity_row_id : Int) (db : Db)
    (team : TeamEntryData) : Except Unit Db :=
  exec fail (fun s =>
    { s with team_result := s.team_result ++
        [⟨team.team, team.score, team.standing, activity_row_id⟩] }) db

/-- Body of the mode-tag-rows loop of `_insert_activity` (lines 536-550). -/
def mode_insert_step (fail : FailSet) (activity_row_id : Int) (db : Db)
    (mode : Int) : Except Unit Db :=
  exec fail (fun s =>
    { s with modes := s.modes ++ [⟨mode, activity_row_id⟩] }) db

/-- Body of the participant-entries loop of `_insert_activity` (lines
552-578): upsert the participant's member and character rows, then insert
the stats row with its child rows. -/
def entry_insert_step (fail : FailSet) (activity_row_id : Int) (db : Db)
    (entry : PgcrEntryData) : Except Unit Db := do
  let (member_row_id, db) ← insert_member_id fail entry.membership_id
    entry.membership_type entry.display_name db
  let (crid, db) ← insert_character_id fail entry.character_id
    (class_from_hash entry.class_hash) member_row_id db
  _insert_character_activity_stats fail entry crid activity_row_id db

/-- Continuation of `_insert_activity` past the already-stored check (lines
496-586): write the activity row (INSERT OR IGNORE), fetch its row id
back, write the team rows, the mode tag rows and the per-participant data,
and finally delete the queue entry for this character and activity id. -/
def _insert_activity_fresh (fail : FailSet) (data : PgcrData)
    (character_row_id : Int) (db : Db) : Except Unit Db := do
  let db ← exec fail (fun s =>
    if s.activity.any (fun r => r.activity_id == data.activity_details.instance_id) then s
    else
      { s with
          activity := s.activity ++
            [⟨s.next_row_id, data.activity_details.instance_id, data.period,
              data.activity_details.mode, data.activity_details.membership_type,
              data.activity_details.director_activity_hash,
              data.activity_details.reference_id⟩],
          next_row_id := s.next_row_id + 1 }) db
  let activity_row_id ← get_activity_row_id data.activity_details.instance_id db.store
  let db ← data.teams.foldlM (team_insert_step fail activity_row_id) db
  let db ← data.activity_details.modes.foldlM
    (mode_insert_step fail activity_row_id) db
  let db ← data.entries.foldlM (entry_insert_step fail activity_row_id) db
  remove_from_activity_queue fail character_row_id data.activity_details.instance_id db

/-- Body of the per-activity insert transaction (`_insert_activity`, lines
478-587): if the activity id already has a row, return success immediately
(a pure no-op — the source's early return, with its `todo` about the queue
entry); otherwise run the full insert sequence. -/
def _insert_activity (fail : FailSet) (data : PgcrData) (character_row_id : Int)
    (db : Db) : Except Unit Db :=
  match get_activity_row_id data.activity_details.instance_id db.store with
  | .ok _ => .ok db
  | .error _ => _insert_activity_fresh fail data character_row_id db

/-- The per-activity insert transaction (`insert_activity`, lines 441-464):
BEGIN, run `_insert_activity`, COMMIT (plus a best-effort PRAGMA OPTIMIZE,
a no-op here) on success, ROLLBACK — restoring the connection to the
snapshot taken at BEGIN — and surface the error on failure. -/
def insert_activity (fail : FailSet) (data : PgcrData) (character_row_id : Int)
    (db : Db) : Except Unit Unit × Db :=
  match _insert_activity fail data character_row_id db with
  | .ok db' => (.ok (), db')
  | .error e => (.error e, db)

/-! ## Queue population and drain -/

/-- The `{total_available, total_synced}` result of a sync pass
(`SyncResult`, lines 1710-1714).  The source fields are `u32`; they are
carried as `Nat` (both counters count list elements).  The one `u32`
subtraction performed on them, in `sync`, is modelled as truncated `Nat`
subtraction; claim C10 shows it never underflows. -/
structure SyncResult where
  total_available : Nat
  total_synced : Nat
deriving Repr, DecidableEq

/-- Componentwise addition (`impl Add for SyncResult`, lines 1716-1725). -/
instance : Add SyncResult :=
  ⟨fun a b => ⟨a.total_available + b.total_available, a.total_synced + b.total_synced⟩⟩

/-- Joined row set of the since-id query (`get_max_activity_id`, lines
856-888): activities joined to a `character_activity_stats` row of this
character (and its `character` row) and to a `modes` row with the given
mode id.  The source's `modes.mode in (select mode from modes where mode = ?)`
membership test reduces to `modes.mode = ?`; `modeId` stands for the
source's `mode.to_id()` value. -/
def sync_scope_rows (character_row_id : Int) (modeId : Int) (s : Store) :
    List ActivityRow :=
  s.activity.filter (fun a =>
    s.character_activity_stats.any (fun c =>
      c.activity == a.id && c.character == character_row_id
        && s.character.any (fun ch => ch.id == c.character))
      && s.modes.any (fun m => m.activity == a.id && m.mode == modeId))

/-- SELECT of the since-id for a character within a mode scope
(`get_max_activity_id`, lines 856-888): over the joined rows of
`sync_scope_rows`, the `ORDER BY period DESC LIMIT 1` selection — the
`activity_id` of a latest-period row, or `0` when there is none. -/
def get_max_activity_id (character_row_id : Int) (modeId : Int) (s : Store) : Int :=
  match sync_scope_rows character_row_id modeId s with
  | [] => 0
  | r :: rs =>
    (rs.foldl (fun best a => if best.period < a.period then a else best) r).activity_id

/-- Drain of the queue for one character (`sync_activities`, lines
197-312): read all queued activity ids for the character; if none, return
the zero result; otherwise fetch the carnage report of each id and insert
it, counting an id as synced exactly when its insert returns success.  A
fetch error or an empty (`None`) report leaves the queue entry in place and
is skipped, as is an insert error.  The source issues the fetches in
concurrent chunks of 24 (`PGCR_REQUEST_CHUNK_AMOUNT`); inserts are
processed per id in reading order either way, so the chunking is pure
fetch scheduling and is dropped here.  `pgcr` is the
`retrieve_post_game_carnage_report` collaborator. -/
def sync_activities (fail : FailSet) (pgcr : Int → Except Unit (Option PgcrData))
    (character_row_id : Int) (db : Db) : Db × SyncResult :=
  let ids := (db.store.activity_queue.filter (fun q =>
    q.character == character_row_id)).map (fun q => q.activity_id)
  if ids.isEmpty then (db, ⟨0, 0⟩)
  else
    let total_available := ids.length
    let r := ids.foldl (fun (acc : Db × Nat) c =>
      match pgcr c with
      | .ok (some e) =>
          match insert_activity fail e character_row_id acc.1 with
          | (.ok _, db') => (db', acc.2 + 1)
          | (.error _, db') => (db', acc.2)
      | .ok none => acc
      | .error _ => acc) (db, 0)
    (r.1, ⟨total_available, r.2⟩)

/-- First magic director-activity-hash excluded from the queue (a gambit
private match artifact, line 405). -/
def magic_gambit_private_1 : Nat := 2526740498

/-- Second magic director-activity-hash excluded from the queue (lines
406-407; the source tests this value twice). -/
def magic_gambit_private_2 : Nat := 248695599

/-- Body of the queue-population loop (`_update_activity_queue`, lines
397-432): skip the activity when its director-activity-hash is one of the
two magic gambit-private values (the source tests the second value twice),
otherwise count it and insert its id into `activity_queue` for this
character.  `api` below is the `retrieve_activities_since_id` collaborator
(member id, character id, platform id, mode id, since id). -/
def queue_insert_step (fail : FailSet) (character_row_id : Int)
    (acc : Db × Nat) (activity : ActivitySummary) : Except Unit (Db × Nat) :=
  if activity.director_activity_hash == magic_gambit_private_1
      || activity.director_activity_hash == magic_gambit_private_2
      || activity.director_activity_hash == magic_gambit_private_2 then
    Except.ok acc
  else do
    let total := acc.2 + 1
    let db ← exec fail (fun s =>
      { s with activity_queue := s.activity_queue ++
          [⟨activity.instance_id, character_row_id⟩] }) acc.1
    Except.ok (db, total)

/-- Continuation of the queue-population loop above
(`_update_activity_queue`, lines 349-439): compute the since-id, ask the
collaborator for the page of newer activities (`None` means nothing to
do), reverse it so the oldest is inserted first, and run
`queue_insert_step` over the page — all inside one transaction: the first
failing insert rolls the whole page back and surfaces the error. -/
def _update_activity_queue (fail : FailSet)
    (api : String → String → Int → Int → Int → Option (List ActivitySummary))
    (character_row_id : Int) (member_id character_id : String) (platform : Int)
    (modeId : Int) (db : Db) : Except Unit SyncResult × Db :=
  let max_id := get_max_activity_id character_row_id modeId db.store
  match api member_id character_id platform modeId max_id with
  | none => (.ok ⟨0, 0⟩, db)
  | some result =>
    let activities := result.reverse
    match activities.foldlM (queue_insert_step fail character_row_id) (db, 0) with
    | .ok r => (.ok ⟨r.2, r.2⟩, r.1)
    | .error _ => (.error (), db)

/-- Modelled from the spec: `Mode::PrivateMatchesAll.to_id()`.  The `Mode`
enum (`enums/mode.rs`) is not under `src/`; the value 32 is recorded in the
source comment at `activitystoreinterface.rs:1257` ("the bungie api for
private only returns 32"). -/
def modePrivateMatchesAllId : Int := 32

/-- Modelled from the spec: `Mode::AllPvP.to_id()`, the public-all
visibility scope (`enums/mode.rs` is not under `src/`). -/
def modeAllPvPId : Int := 5

/-- Queue population for one character, both visibility scopes
(`update_activity_queue`, lines 314-346): private-matches-all first, then
all-PvP; an error in either aborts (the `?` operator), and the two results
are added. -/
def update_activity_queue (fail : FailSet)
    (api : String → String → Int → Int → Int → Option (List ActivitySummary))
    (character_row_id : Int) (member_id character_id : String) (platform : Int)
    (db : Db) : Except Unit (SyncResult × Db) := do
  let (r1, db) := _update_activity_queue fail api character_row_id member_id
    character_id platform modePrivateMatchesAllId db
  let prv_result ← r1
  let (r2, db) := _update_activity_queue fail api character_row_id member_id
    character_id platform modeAllPvPId db
  let pub_result ← r2
  .ok (pub_result + prv_result, db)

/-- Character roster metadata handed to `sync` by `get_player_info`
(id plus class discriminator). -/
structure CharacterMeta where
  id : String
  class_id : Nat
deriving Repr, DecidableEq

/-- Body of the per-character loop of `sync` (lines 160-188): upsert the
character row, drain (`sync_activities`), populate the queue for both
scopes (`update_activity_queue`, result discarded), drain again, and
accumulate `total_synced += a.total_synced + c.total_synced` and
`total_in_queue += (a.total_available + c.total_available)
- (a.total_synced + c.total_synced)` (a `u32` subtraction in the source,
truncated `Nat` subtraction here; claim C10 shows it never underflows). -/
def sync_loop_body (fail : FailSet)
    (api : String → String → Int → Int → Int → Option (List ActivitySummary))
    (pgcr : Int → Except Unit (Option PgcrData))
    (member_id : String) (platform : Int) (member_row_id : Int)
    (acc : Nat × Nat × Db) (ch : CharacterMeta) :
    Except Unit (Nat × Nat × Db) := do
  let (character_row_id, db) ← insert_character_id fail ch.id ch.class_id
    member_row_id acc.2.2
  let (db, a) := sync_activities fail pgcr character_row_id db
  let (_b, db) ← update_activity_queue fail api character_row_id member_id
    ch.id platform db
  let (db, c) := sync_activities fail pgcr character_row_id db
  .ok (acc.1 + (a.total_synced + c.total_synced),
       acc.2.1 + ((a.total_available + c.total_available)
         - (a.total_synced + c.total_synced)),
       db)

/-- The top-level sync (`sync`, lines 131-194): upsert the member row,
then run `sync_loop_body` over the characters, returning the accumulated
counters.  The member's display name, platform and character list stand
for the `get_player_info` response. -/
def sync (fail : FailSet)
    (api : String → String → Int → Int → Int → Option (List ActivitySummary))
    (pgcr : Int → Except Unit (Option PgcrData))
    (member_id : String) (platform : Int) (display_name : String)
    (characters : List CharacterMeta) (db : Db) :
    Except Unit (SyncResult × Db) := do
  let (member_row_id, db) ← insert_member_id fail member_id platform display_name db
  let acc ← characters.foldlM
    (sync_loop_body fail api pgcr member_id platform member_row_id) (0, 0, db)
  .ok (⟨acc.2.1, acc.1⟩, acc.2.2)

/-! ## Hash-to-id conversion (`manifestinterface.rs`) -/

/-- Conversion of a Destiny 2 API hash to a manifest db index
(`convert_hash_to_id`, `manifestinterface.rs:44-52`): `let id = hash as
i64; if id & (1 << 31) != 0 { id -= 1 << 32 }`.  The `u32` hash is a `Nat`
and the `i64` bit test on the (nonnegative) value is the `Nat` bitwise
test; `1 << 32` is written as its value. -/
def convert_hash_to_id (hash : Nat) : Int :=
  let id : Int := (hash : Int)
  if hash &&& (1 <<< 31) != 0 then id - ((1 <<< 32 : Nat) : Int) else id

/-! ## Retrieval over a time period -/

/-- Modelled from the spec: the requested `Mode` as the retrieval layer
sees it — its `to_id()` value and its `is_private()` flag (`enums/mode.rs`
is not under `src/`).  Mode ids are `u32` in the source, hence
nonnegative. -/
structure ModeInfo where
  id : Int
  isPrivate : Bool
deriving Repr, DecidableEq

/-- The mode tag excluded by the period retrievals (lines 1247-1253 and
1315-1321): `-1` when the requested mode is private (no stored tag can
match it), private-matches-all otherwise. -/
def restrict_mode_id (mode : ModeInfo) : Int :=
  if mode.isPrivate then -1 else modePrivateMatchesAllId

/-- EXISTS (select 1 from modes where activity = ? and mode = ?). -/
def activityHasTag (s : Store) (activity_index : Int) (tag : Int) : Bool :=
  s.modes.any (fun m => m.activity == activity_index && m.mode == tag)

/-- Rows returned by `retrieve_activities_for_member_since` (lines
1240-1302), projected to their `character_activity_stats` and `activity`
components: the join of `character_activity_stats`, `activity`,
`character` and `member`, restricted to the member with the given member
id, the open period window, the presence of the requested mode tag, and
the absence of the restricted mode tag.  The `ORDER BY period DESC` only
orders the rows and no claim concerns order, so it is dropped; the
caller-facing `Option` wrapper (`None` when empty) and the definition
enrichment are not modelled. -/
def retrieve_activities_for_member_since (member_id : String) (mode : ModeInfo)
    (period_start period_end : Nat) (s : Store) : List (CasRow × ActivityRow) :=
  let restrict := restrict_mode_id mode
  s.character_activity_stats.flatMap (fun cas =>
    s.activity.flatMap (fun a =>
      s.character.flatMap (fun ch =>
        s.member.filterMap (fun m =>
          if cas.activity == a.id && cas.character == ch.id && m.id == ch.member
              && (match s.member.find? (fun mm => mm.member_id == member_id) with
                  | some mm => m.id == mm.id
                  | none => false)
              && period_start < a.period && a.period < period_end
              && activityHasTag s a.id mode.id
              && !activityHasTag s a.id restrict
          then some (cas, a) else none))))

/-- SELECT of a character row id by member id and character id with
`fetch_one` (`get_character_row_id`, lines 760-785). -/
def get_character_row_id (member_id character_id : String) (s : Store) :
    Except Unit Int :=
  match s.character.find? (fun ch =>
      ch.character_id == character_id
        && s.member.any (fun m => m.id == ch.member && m.member_id == member_id)) with
  | some ch => .ok ch.id
  | none => .error ()

/-- Rows returned by `retrieve_activities_for_character` (lines
1304-1366), projected as for the member variant: resolve the character row
id, then the same join restricted by `character_activity_stats.character`
instead of by member. -/
def retrieve_activities_for_character (member_id character_id : String)
    (mode : ModeInfo) (period_start period_end : Nat) (s : Store) :
    Except Unit (List (CasRow × ActivityRow)) := do
  let character_index ← get_character_row_id member_id character_id s
  let restrict := restrict_mode_id mode
  .ok (s.character_activity_stats.flatMap (fun cas =>
    s.activity.flatMap (fun a =>
      s.character.flatMap (fun ch =>
        s.member.filterMap (fun m =>
          if cas.activity == a.id && cas.character == ch.id && m.id == ch.member
              && period_start < a.period && a.period < period_end
              && activityHasTag s a.id mode.id
              && !activityHasTag s a.id restrict
              && cas.character == character_index
          then some (cas, a) else none)))))

/-! ## Projection: team buckets (`populate_activity_data`) -/

/-- The sentinel team id for activities without team rows
(`NO_TEAMS_INDEX`, line 72). -/
def NO_TEAMS_INDEX : Int := 253

/-- One per-actor performance as the bucketing step sees it: its team
reference (`stats.team`) plus an opaque row index standing for the full
`CruciblePlayerPerformance` payload. -/
structure PerfRow where
  team : Int
  stats_index : Nat
deriving Repr, DecidableEq

/-- One team bucket (`Team` in `crucible.rs`, restricted to the fields the
claims inspect; the standing enum is not under `src/` and no claim
concerns it). -/
structure TeamBucket where
  id : Int
  score : Int
  display_name : String
  player_performances : List PerfRow
deriving Repr, DecidableEq

/-- The fixed team display-name pool (lines 1059-1066). -/
def team_names_pool : List String :=
  ["Alpha", "Bravo", "Charlie", "Delta", "Echo", "Foxtrot"]

/-- Pop the next team display name (empty string once exhausted): the
source reverses the pool `Vec` and pops from its back, consuming names in
pool order; modelled as head consumption of the unreversed pool. -/
def popName (names : List String) : String × List String :=
  (names.headD "", names.tail)

/-- HashMap::insert on the team map, as an association list. -/
def hmInsert (m : List (Int × TeamBucket)) (k : Int) (v : TeamBucket) :
    List (Int × TeamBucket) :=
  if m.any (fun p => p.1 == k) then
    m.map (fun p => if p.1 == k then (k, v) else p)
  else m ++ [(k, v)]

/-- HashMap::get_mut followed by a mutation; a missing key is skipped (the
source logs "Invalid Team ID" and drops the performance). -/
def hmModify (m : List (Int × TeamBucket)) (k : Int) (f : TeamBucket → TeamBucket) :
    List (Int × TeamBucket) :=
  m.map (fun p => if p.1 == k then (p.1, f p.2) else p)

/-- The team-bucketing step of `populate_activity_data` (lines 1036-1153):
build one bucket per `team_result` row of the activity, consuming display
names from the pool; when there are no team rows, create the single
synthetic bucket with id `NO_TEAMS_INDEX`; then attach every performance
row of the activity to the bucket of its team id — to the synthetic bucket
when there were no team rows.  Only bucket contents are ever stated, never
`HashMap` iteration order. -/
def populate_teams (team_rows : List TeamResultRow) (perf_rows : List PerfRow) :
    List (Int × TeamBucket) :=
  let init := team_rows.foldl (fun (acc : List (Int × TeamBucket) × List String) t =>
    let (name, names) := popName acc.2
    (hmInsert acc.1 t.team_id ⟨t.team_id, t.score, name, []⟩, names)) ([], team_names_pool)
  let teams := init.1
  let p :=
    if teams.isEmpty then
      (hmInsert teams NO_TEAMS_INDEX ⟨NO_TEAMS_INDEX, 0, (popName init.2).1, []⟩, true)
    else (teams, false)
  perf_rows.foldl (fun teams q =>
    let index := if p.2 then NO_TEAMS_INDEX else q.team
    hmModify teams index (fun b =>
      { b with player_performances := b.player_performances ++ [q] })) p.1

/-! ## Comparison definitions written from the claims' words

Each definition below follows a claim's (or the spec's) wording, not the
source; each is the comparison point of a refinement statement. -/

/-- Claim C5's description of the since-id, from its words: the maximum
`activity_id` among stored activities that have a
`character_activity_stats` row for the roster entry and carry the scope's
mode tag; `0` when there is none. -/
def maxStoredEventId (character_row_id : Int) (modeId : Int) (s : Store) : Int :=
  ((s.activity.filter (fun a =>
      s.character_activity_stats.any (fun c =>
        c.activity == a.id && c.character == character_row_id)
        && s.modes.any (fun m => m.activity == a.id && m.mode == modeId))).map
    (fun a => a.activity_id)).foldl max 0

/-- Claim C6's description of the top-level sync, from its words: per
roster entry Discover (both scopes) then Drain, then Discover then Drain a
second time, counts summed across scopes and passes. -/
def syncSpecOrdered (fail : FailSet)
    (api : String → String → Int → Int → Int → Option (List ActivitySummary))
    (pgcr : Int → Except Unit (Option PgcrData))
    (member_id : String) (platform : Int) (display_name : String)
    (characters : List CharacterMeta) (db : Db) :
    Except Unit (SyncResult × Db) := do
  let (member_row_id, db) ← insert_member_id fail member_id platform display_name db
  let acc ← characters.foldlM (fun (acc : Nat × Nat × Db) ch => do
    let (character_row_id, db) ← insert_character_id fail ch.id ch.class_id
      member_row_id acc.2.2
    let (_b1, db) ← update_activity_queue fail api character_row_id member_id
      ch.id platform db
    let (db, a) := sync_activities fail pgcr character_row_id db
    let (_b2, db) ← update_activity_queue fail api character_row_id member_id
      ch.id platform db
    let (db, c) := sync_activities fail pgcr character_row_id db
    .ok (acc.1 + (a.total_synced + c.total_synced),
         acc.2.1 + ((a.total_available + c.total_available)
           - (a.total_synced + c.total_synced)),
         db)) (0, 0, db)
  .ok (⟨acc.2.1, acc.1⟩, acc.2.2)

/-- One roster entry's processing as the amended claim C6 words it: upsert
the character row, Drain, Discover (private then public), Drain, returning
the two drain results. -/
def sync_character_pass (fail : FailSet)
    (api : String → String → Int → Int → Int → Option (List ActivitySummary))
    (pgcr : Int → Except Unit (Option PgcrData))
    (member_id : String) (platform : Int) (member_row_id : Int)
    (ch : CharacterMeta) (db : Db) : Except Unit (SyncResult × SyncResult × Db) := do
  let (character_row_id, db) ← insert_character_id fail ch.id ch.class_id
    member_row_id db
  let (db, a) := sync_activities fail pgcr character_row_id db
  let (_b, db) ← update_activity_queue fail api character_row_id member_id
    ch.id platform db
  let (db, c) := sync_activities fail pgcr character_row_id db
  .ok (a, c, db)

/-- The list of per-roster-entry drain result pairs, in processing order. -/
def sync_passes (fail : FailSet)
    (api : String → String → Int → Int → Int → Option (List ActivitySummary))
    (pgcr : Int → Except Unit (Option PgcrData))
    (member_id : String) (platform : Int) (member_row_id : Int) :
    List CharacterMeta → Db → Except Unit (List (SyncResult × SyncResult) × Db)
  | [], db => .ok ([], db)
  | ch :: rest, db => do
    let (a, c, db) ← sync_character_pass fail api pgcr member_id platform
      member_row_id ch db
    let (rs, db) ← sync_passes fail api pgcr member_id platform member_row_id rest db
    .ok ((a, c) :: rs, db)

/-- The amended claim C6's description of the top-level sync: member
upsert, then per roster entry Drain / Discover (private, public) / Drain,
with the returned synced count the sum over roster entries of the two
drain passes' synced counts and the returned still-queued count the sum of
their `available - synced` differences (the discover results are
discarded). -/
def sync_amended (fail : FailSet)
    (api : String → String → Int → Int → Int → Option (List ActivitySummary))
    (pgcr : Int → Except Unit (Option PgcrData))
    (member_id : String) (platform : Int) (display_name : String)
    (characters : List CharacterMeta) (db : Db) :
    Except Unit (SyncResult × Db) := do
  let (member_row_id, db) ← insert_member_id fail member_id platform display_name db
  let (rs, db) ← sync_passes fail api pgcr member_id platform member_row_id
    characters db
  .ok (⟨(rs.map (fun r => (r.1.total_available + r.2.total_available)
           - (r.1.total_synced + r.2.total_synced))).sum,
        (rs.map (fun r => r.1.total_synced + r.2.total_synced)).sum⟩, db)

/-- Claim C8's description of private-mode retrieval, from its words: the
member query with only the requested mode tag required — no private-match
exclusion. -/
def retrieve_member_rows_no_exclusion (member_id : String) (mode_tag : Int)
    (period_start period_end : Nat) (s : Store) : List (CasRow × ActivityRow) :=
  s.character_activity_stats.flatMap (fun cas =>
    s.activity.flatMap (fun a =>
      s.character.flatMap (fun ch =>
        s.member.filterMap (fun m =>
          if cas.activity == a.id && cas.character == ch.id && m.id == ch.member
              && (match s.member.find? (fun mm => mm.member_id == member_id) with
                  | some mm => m.id == mm.id
                  | none => false)
              && period_start < a.period && a.period < period_end
              && activityHasTag s a.id mode_tag
          then some (cas, a) else none))))

/-- Claim C8's description of private-mode retrieval for the character
variant, from its words: only the requested mode tag required. -/
def retrieve_character_rows_no_exclusion (member_id character_id : String)
    (mode_tag : Int) (period_start period_end : Nat) (s : Store) :
    Except Unit (List (CasRow × ActivityRow)) := do
  let character_index ← get_character_row_id member_id character_id s
  .ok (s.character_activity_stats.flatMap (fun cas =>
    s.activity.flatMap (fun a =>
      s.character.flatMap (fun ch =>
        s.member.filterMap (fun m =>
          if cas.activity == a.id && cas.character == ch.id && m.id == ch.member
              && period_start < a.period && a.period < period_end
              && activityHasTag s a.id mode_tag
              && cas.character == character_index
          then some (cas, a) else none)))))

/-! ## Predicates used by the transactional-insert statements -/

/-- Membership preservation across the tables the per-event insert appends
to (the `member` table, whose display names are rewritten in place, and
the `activity_queue`, which is filtered, are deliberately excluded). -/
structure Preserves (s s' : Store) : Prop where
  activity : ∀ r ∈ s.activity, r ∈ s'.activity
  team_result : ∀ r ∈ s.team_result, r ∈ s'.team_result
  modes : ∀ r ∈ s.modes, r ∈ s'.modes
  character : ∀ r ∈ s.character, r ∈ s'.character
  character_activity_stats :
    ∀ r ∈ s.character_activity_stats, r ∈ s'.character_activity_stats
  medal_result : ∀ r ∈ s.medal_result, r ∈ s'.medal_result
  weapon_result : ∀ r ∈ s.weapon_result, r ∈ s'.weapon_result

/-- All data of one participant entry is present in the store: a character
row for the entry, its stats row for the activity, and the medal and
weapon child rows of that stats row. -/
def EntryCommitted (e : PgcrEntryData) (activity_row_id : Int) (s : Store) : Prop :=
  ∃ chrow ∈ s.character, chrow.character_id = e.character_id ∧
    ∃ casrow ∈ s.character_activity_stats,
      casrow.character = chrow.id ∧ casrow.activity = activity_row_id ∧
      (∀ kv ∈ e.medals, MedalResultRow.mk kv.1 kv.2 casrow.id ∈ s.medal_result) ∧
      (∀ w ∈ e.weapons.getD [],
        WeaponResultRow.mk w.reference_id w.unique_weapon_kills
          w.unique_weapon_precision_kills casrow.id ∈ s.weapon_result)

/-- All data of one carnage report is present in the final connection
state and its queue entry is gone: the activity row, every team row, every
mode tag row, every participant's data, and no queue row for this
character and activity id. -/
def InsertCommitted (data : PgcrData) (character_row_id : Int) (dbf : Db) : Prop :=
  ∃ arow ∈ dbf.store.activity,
    arow.activity_id = data.activity_details.instance_id ∧
    (∀ t ∈ data.teams,
      TeamResultRow.mk t.team t.score t.standing arow.id ∈ dbf.store.team_result) ∧
    (∀ mo ∈ data.activity_details.modes, ModeRow.mk mo arow.id ∈ dbf.store.modes) ∧
    (∀ e ∈ data.entries, EntryCommitted e arow.id dbf.store) ∧
    (∀ q ∈ dbf.store.activity_queue,
      ¬(q.character = character_row_id ∧
        q.activity_id = data.activity_details.instance_id))

/-! ## Concrete scenario inputs for counterexamples and witnesses -/

/-- A carnage report with one team, one participant carrying one medal and
one weapon, used by witnesses: instance id 100, mode 5, played by member
"m" on character "c1". -/
def pgcrSample : PgcrData :=
  ⟨10, ⟨1, 7, 100, 5, [5], 3⟩, [⟨17, 50, 1⟩],
   [⟨"m", 3, "n", 0, "c1", 17, [("medalX", 2)], some [⟨9, 4, 2⟩]⟩]⟩

/-- A store that already holds activity id 100 (as its only activity row)
and still holds the queue entry (character 1, activity 100). -/
def storeWithActivity100 : Store :=
  { activity := [⟨1, 100, 10, 5, 3, 7, 1⟩],
    team_result := [], modes := [⟨5, 1⟩],
    member := [], character := [],
    character_activity_stats := [],
    medal_result := [], weapon_result := [],
    activity_queue := [⟨100, 1⟩],
    next_row_id := 2 }

/-- A store that holds no activity rows but still has the queue entry
(character 1, activity 100), used for the C3 witness: inserting activity
100 from here goes down the fresh path. -/
def storeQueuedOnly : Store :=
  { activity := [], team_result := [], modes := [],
    member := [], character := [],
    character_activity_stats := [],
    medal_result := [], weapon_result := [],
    activity_queue := [⟨100, 1⟩],
    next_row_id := 1 }

/-- Store for the C5 counterexample: character row 2 of member row 1 has
two synced activities carrying mode tag 5 — activity id 5 with period 1,
and activity id 3 with the later period 2. -/
def storeC5 : Store :=
  { activity := [⟨1, 5, 1, 5, 1, 0, 0⟩, ⟨2, 3, 2, 5, 1, 0, 0⟩],
    team_result := [], modes := [⟨5, 1⟩, ⟨5, 2⟩],
    member := [⟨1, "m", 1, "n"⟩],
    character := [⟨2, "c", 1, 0⟩],
    character_activity_stats := [⟨3, 2, 1, 0⟩, ⟨4, 2, 2, 0⟩],
    medal_result := [], weapon_result := [],
    activity_queue := [], next_row_id := 5 }

/-- Collaborator page oracle for the C6 counterexample: in the public-all
scope it reports activity 100 when asked from since-id 0 and activity 200
when asked from since-id 100; the private scope reports nothing. -/
def apiC6 : String → String → Int → Int → Int → Option (List ActivitySummary) :=
  fun _ _ _ modeId since_id =>
    if modeId == modeAllPvPId then
      if since_id == 0 then some [⟨7, 100⟩]
      else if since_id == 100 then some [⟨7, 200⟩]
      else none
    else none

/-- Carnage report oracle for the C6 counterexample: activities 100 and
200, each a mode-5 match of member "m" on character "c1". -/
def pgcrC6 : Int → Except Unit (Option PgcrData) :=
  fun iid =>
    if iid == 100 then .ok (some ⟨10, ⟨1, 7, 100, 5, [5], 3⟩, [], [⟨"m", 3, "n", 0, "c1", 0, [], none⟩]⟩)
    else if iid == 200 then .ok (some ⟨20, ⟨1, 7, 200, 5, [5], 3⟩, [], [⟨"m", 3, "n", 0, "c1", 0, [], none⟩]⟩)
    else .ok none

/-- The queue rows a page of activities contributes for a character, in
processing order: the page's activities whose director-activity-hash is
neither magic value, mapped to their `activity_queue` rows (claim C7's
description of a successful page insert). -/
def page_queue_rows (crid : Int) (acts : List ActivitySummary) : List QueueRow :=
  (acts.filter (fun a =>
    !(a.director_activity_hash == magic_gambit_private_1
      || a.director_activity_hash == magic_gambit_private_2))).map
    (fun a => QueueRow.mk a.instance_id crid)

/-- Page for the C7 witness: one ordinary activity (id 100) and one
magic-hash gambit-private artifact (id 101). -/
def pageC7 : List ActivitySummary := [⟨7, 100⟩, ⟨2526740498, 101⟩]

/-- Collaborator page oracle for the C7 witness: always returns `pageC7`. -/
def apiC7 : String → String → Int → Int → Int → Option (List ActivitySummary) :=
  fun _ _ _ _ _ => some pageC7

/-- A store whose modes table carries tags 5 and 32 for activity row 1 and
tag 5 for activity row 2, with one member/character/stats chain per
activity, used by the C8 witness. -/
def storeC8 : Store :=
  { activity := [⟨1, 100, 10, 5, 3, 7, 1⟩, ⟨2, 200, 20, 5, 3, 7, 1⟩],
    team_result := [],
    modes := [⟨5, 1⟩, ⟨32, 1⟩, ⟨5, 2⟩],
    member := [⟨1, "m", 3, "n"⟩],
    character := [⟨2, "c1", 1, 0⟩],
    character_activity_stats := [⟨3, 2, 1, 0⟩, ⟨4, 2, 2, 0⟩],
    medal_result := [], weapon_result := [],
    activity_queue := [], next_row_id := 5 }

/-! # Theorems -/

/-- C4: for every 32-bit unsigned hash, `convert_hash_to_id` returns its
two's-complement signed interpretation — `hash - 2^32` when the high bit
is set, `hash` unchanged otherwise — and in particular `0x80000000` maps
to `-2147483648`, `0x00000001` to `1` and `0xFFFFFFFF` to `-1`. -/
theorem convert_hash_to_id_twos_complement (h : Nat) (hlt : h < 2 ^ 32) :
    convert_hash_to_id h =
      (if 2 ^ 31 ≤ h then (h : Int) - 2 ^ 32 else (h : Int)) ∧
    convert_hash_to_id 0x80000000 = -2147483648 ∧
    convert_hash_to_id 0x00000001 = 1 ∧
    convert_hash_to_id 0xFFFFFFFF = -1 := by
  refine ⟨?_, by decide, by decide, by decide⟩
  have hsh : (1 <<< 31 : Nat) = 2 ^ 31 := by
    rw [Nat.shiftLeft_eq, one_mul]
  by_cases hc : 2 ^ 31 ≤ h
  · have hd1 : h / 2 ^ 31 = 1 := by
      have h2 : h / 2 ^ 31 < 2 :=
        (Nat.div_lt_iff_lt_mul (by norm_num)).mpr (by omega)
      have h1 : 1 ≤ h / 2 ^ 31 := (Nat.one_le_div_iff (by norm_num)).mpr hc
      omega
    have hbit : (h &&& (1 <<< 31) != 0) = true := by
      rw [hsh, Nat.and_two_pow, Nat.testBit_to_div_mod, hd1]
      norm_num
    simp only [convert_hash_to_id, hbit, if_pos hc, if_true]
    norm_num [Nat.shiftLeft_eq]
  · have hd0 : h / 2 ^ 31 = 0 := Nat.div_eq_of_lt (by omega)
    have hbit : (h &&& (1 <<< 31) != 0) = false := by
      rw [hsh, Nat.and_two_pow, Nat.testBit_to_div_mod, hd0]
      norm_num
    simp only [convert_hash_to_id, hbit, if_neg hc, Bool.false_eq_true, if_false]

/-- Witness for C4 at the concrete hashes 3 and the three listed values. -/
theorem convert_hash_to_id_twos_complement_witness :
    convert_hash_to_id 3 =
      (if 2 ^ 31 ≤ 3 then ((3 : Nat) : Int) - 2 ^ 32 else ((3 : Nat) : Int)) ∧
    convert_hash_to_id 0x80000000 = -2147483648 ∧
    convert_hash_to_id 0x00000001 = 1 ∧
    convert_hash_to_id 0xFFFFFFFF = -1 :=
  convert_hash_to_id_twos_complement 3 (by norm_num)

/-- C9: an activity with zero `team_result` rows yields exactly one
synthetic team bucket, carrying the sentinel id `NO_TEAMS_INDEX` (and the
first pool name), with every performance row attached to it — in
particular two performance rows both land in that single bucket. -/
theorem populate_teams_no_team_rows (perf_rows : List PerfRow) :
    populate_teams [] perf_rows =
      [(NO_TEAMS_INDEX, ⟨NO_TEAMS_INDEX, 0, "Alpha", perf_rows⟩)] := by
  have key : ∀ (qs pre : List PerfRow),
      qs.foldl (fun teams q =>
        hmModify teams NO_TEAMS_INDEX (fun b =>
          { b with player_performances := b.player_performances ++ [q] }))
        [(NO_TEAMS_INDEX, ⟨NO_TEAMS_INDEX, 0, "Alpha", pre⟩)]
      = [(NO_TEAMS_INDEX, ⟨NO_TEAMS_INDEX, 0, "Alpha", pre ++ qs⟩)] := by
    intro qs
    induction qs with
    | nil => intro pre; simp
    | cons q rest ih =>
        intro pre
        have step : hmModify
            [(NO_TEAMS_INDEX, (⟨NO_TEAMS_INDEX, 0, "Alpha", pre⟩ : TeamBucket))]
            NO_TEAMS_INDEX (fun b =>
              { b with player_performances := b.player_performances ++ [q] })
            = [(NO_TEAMS_INDEX, ⟨NO_TEAMS_INDEX, 0, "Alpha", pre ++ [q]⟩)] := by
          simp [hmModify]
        simp only [List.foldl_cons, step]
        rw [ih (pre ++ [q])]
        simp
  have h0 : populate_teams [] perf_rows =
      perf_rows.foldl (fun teams q =>
        hmModify teams NO_TEAMS_INDEX (fun b =>
          { b with player_performances := b.player_performances ++ [q] }))
        [(NO_TEAMS_INDEX, ⟨NO_TEAMS_INDEX, 0, "Alpha", []⟩)] := by
    simp [populate_teams, hmInsert, popName, team_names_pool]
  rw [h0]
  simpa using key perf_rows []

/-- Each drain step syncs at most one activity per queued id. -/
theorem sync_drain_step_le (fail : FailSet) (pgcr : Int → Except Unit (Option PgcrData))
    (crid : Int) (acc : Db × Nat) (c : Int) :
    ((fun (acc : Db × Nat) c =>
      match pgcr c with
      | .ok (some e) =>
          match insert_activity fail e crid acc.1 with
          | (.ok _, db') => (db', acc.2 + 1)
          | (.error _, db') => (db', acc.2)
      | .ok none => acc
      | .error _ => acc) acc c).2 ≤ acc.2 + 1 := by
  rcases hp : pgcr c with e | oe
  · simp [hp]
  · rcases oe with _ | e
    · simp [hp]
    · rcases hi : insert_activity fail e crid acc.1 with ⟨res, db'⟩
      rcases res with r | r <;> simp [hp, hi]

/-- Bound for a fold whose step increments the counter by at most one. -/
theorem foldl_counter_bound {σ : Type} (g : σ × Nat → Int → σ × Nat)
    (hg : ∀ acc c, (g acc c).2 ≤ acc.2 + 1) :
    ∀ (ids : List Int) (acc : σ × Nat), (ids.foldl g acc).2 ≤ acc.2 + ids.length := by
  intro ids
  induction ids with
  | nil => intro acc; simp
  | cons c rest ih =>
      intro acc
      have h1 := ih (g acc c)
      have h2 := hg acc c
      simp only [List.foldl_cons, List.length_cons]
      omega

/-- The synced counter of one drain pass never exceeds the number of
queued ids read at its start. -/
theorem sync_activities_le (fail : FailSet) (pgcr : Int → Except Unit (Option PgcrData))
    (crid : Int) (db : Db) :
    (sync_activities fail pgcr crid db).2.total_synced ≤
      (sync_activities fail pgcr crid db).2.total_available := by
  by_cases hemp : ((db.store.activity_queue.filter (fun q =>
      q.character == crid)).map (fun q => q.activity_id)).isEmpty = true
  · simp [sync_activities, hemp]
  · rw [Bool.not_eq_true] at hemp
    have := foldl_counter_bound
      (fun (acc : Db × Nat) c =>
        match pgcr c with
        | .ok (some e) =>
            match insert_activity fail e crid acc.1 with
            | (.ok _, db') => (db', acc.2 + 1)
            | (.error _, db') => (db', acc.2)
        | .ok none => acc
        | .error _ => acc)
      (fun acc c => sync_drain_step_le fail pgcr crid acc c)
      ((db.store.activity_queue.filter (fun q =>
        q.character == crid)).map (fun q => q.activity_id)) (db, 0)
    simp only [sync_activities, hemp, Bool.false_eq_true, if_false]
    simpa using this

/-- C10: every `SyncResult` a drain pass returns satisfies
`total_synced ≤ total_available`, and consequently the still-queued count
the top-level sync computes for two drain passes,
`(a.total_available + c.total_available) - (a.total_synced + c.total_synced)`
over `u32`, never underflows (the subtrahend never exceeds the minuend). -/
theorem sync_result_no_underflow (fail fail2 : FailSet)
    (pgcr pgcr2 : Int → Except Unit (Option PgcrData))
    (crid crid2 : Int) (db db2 : Db) :
    (sync_activities fail pgcr crid db).2.total_synced ≤
      (sync_activities fail pgcr crid db).2.total_available ∧
    (sync_activities fail pgcr crid db).2.total_synced +
        (sync_activities fail2 pgcr2 crid2 db2).2.total_synced ≤
      (sync_activities fail pgcr crid db).2.total_available +
        (sync_activities fail2 pgcr2 crid2 db2).2.total_available := by
  have h1 := sync_activities_le fail pgcr crid db
  have h2 := sync_activities_le fail2 pgcr2 crid2 db2
  exact ⟨h1, by omega⟩

/-- C5 counterexample: in `storeC5`, character 2 has synced activities
with ids 5 (period 1) and 3 (period 2), both tagged mode 5; the since-id
the code computes is 3 — the id of the latest-period activity — while the
maximum stored event id the claim describes is 5. -/
theorem get_max_activity_id_not_max :
    get_max_activity_id 2 5 storeC5 = 3 ∧ maxStoredEventId 2 5 storeC5 = 5 := by
  constructor <;> rfl

/-- The max-by-period fold of `get_max_activity_id` returns an element of
the row list whose period bounds every row's period. -/
theorem foldl_latest_period_spec :
    ∀ (rs : List ActivityRow) (r : ActivityRow),
      (rs.foldl (fun best a => if best.period < a.period then a else best) r) ∈ r :: rs ∧
      ∀ b ∈ r :: rs,
        b.period ≤ (rs.foldl (fun best a => if best.period < a.period then a else best) r).period := by
  intro rs
  induction rs with
  | nil =>
      intro r
      refine ⟨by simp, ?_⟩
      intro b hb
      simp only [List.mem_singleton] at hb
      subst hb; exact le_rfl
  | cons a rest ih =>
      intro r
      simp only [List.foldl_cons]
      obtain ⟨hmem, hbound⟩ := ih (if r.period < a.period then a else r)
      constructor
      · rcases List.mem_cons.mp hmem with hh | ht
        · rw [hh]
          split
          · exact List.mem_cons_of_mem _ (List.mem_cons_self _ _)
          · exact List.mem_cons_self _ _
        · exact List.mem_cons_of_mem _ (List.mem_cons_of_mem _ ht)
      · intro b hb
        have hfra : (if r.period < a.period then a else r).period ≤
            (rest.foldl (fun best a => if best.period < a.period then a else best)
              (if r.period < a.period then a else r)).period :=
          hbound _ (List.mem_cons_self _ _)
        rcases List.mem_cons.mp hb with hbr | hb'
        · subst hbr
          have : b.period ≤ (if b.period < a.period then a else b).period := by
            split
            · exact le_of_lt (by assumption)
            · exact le_rfl
          exact le_trans this hfra
        · rcases List.mem_cons.mp hb' with hba | hbrest
          · subst hba
            have : b.period ≤ (if r.period < b.period then b else r).period := by
              split
              · exact le_rfl
              · omega
            exact le_trans this hfra
          · exact hbound b (List.mem_cons_of_mem _ hbrest)

/-- C5 amended: the since-id computed at the start of discovery is `0`
when no stored activity of the roster entry carries the scope's mode tag,
and otherwise is the `activity_id` of a stored matching activity whose
period is maximal — the most recently played, not the maximum id. -/
theorem get_max_activity_id_latest_period (crid modeId : Int) (s : Store) :
    (get_max_activity_id crid modeId s = 0 ∧ sync_scope_rows crid modeId s = []) ∨
    (∃ a ∈ sync_scope_rows crid modeId s,
      get_max_activity_id crid modeId s = a.activity_id ∧
      ∀ b ∈ sync_scope_rows crid modeId s, b.period ≤ a.period) := by
  rcases hrows : sync_scope_rows crid modeId s with _ | ⟨r, rs⟩
  · left
    constructor
    · simp [get_max_activity_id, hrows]
    · rfl
  · right
    obtain ⟨hmem, hbound⟩ := foldl_latest_period_spec rs r
    refine ⟨rs.foldl (fun best a => if best.period < a.period then a else best) r,
      ?_, ?_, ?_⟩
    · exact hmem
    · simp [get_max_activity_id, hrows]
    · exact hbound

/-- Every row the member-scoped period retrieval returns carries the
requested mode tag and does not carry the restricted tag. -/
theorem retrieve_member_mem_tags (member_id : String) (mode : ModeInfo)
    (ps pe : Nat) (s : Store) (p : CasRow × ActivityRow)
    (hp : p ∈ retrieve_activities_for_member_since member_id mode ps pe s) :
    activityHasTag s p.2.id mode.id = true ∧
    activityHasTag s p.2.id (restrict_mode_id mode) = false := by
  simp only [retrieve_activities_for_member_since, List.mem_flatMap,
    List.mem_filterMap] at hp
  obtain ⟨cas, -, a, -, ch, -, m, -, hif⟩ := hp
  rw [Option.ite_none_right_eq_some, Option.some.injEq] at hif
  obtain ⟨hcond, heq⟩ := hif
  subst heq
  simp only [Bool.and_eq_true, Bool.not_eq_true'] at hcond
  exact ⟨hcond.1.2, hcond.2⟩

/-- Every row the character-scoped period retrieval returns carries the
requested mode tag and does not carry the restricted tag. -/
theorem retrieve_character_mem_tags (member_id character_id : String)
    (mode : ModeInfo) (ps pe : Nat) (s : Store)
    (rows : List (CasRow × ActivityRow))
    (hrows : retrieve_activities_for_character member_id character_id mode ps pe s
      = .ok rows)
    (p : CasRow × ActivityRow) (hp : p ∈ rows) :
    activityHasTag s p.2.id mode.id = true ∧
    activityHasTag s p.2.id (restrict_mode_id mode) = false := by
  rcases hcr : get_character_row_id member_id character_id s with e | ci
  · rw [retrieve_activities_for_character, hcr] at hrows
    exact absurd hrows (by simp [Bind.bind, Except.bind])
  · rw [retrieve_activities_for_character, hcr] at hrows
    simp only [Bind.bind, Except.bind, Except.ok.injEq] at hrows
    subst hrows
    simp only [List.mem_flatMap, List.mem_filterMap] at hp
    obtain ⟨cas, -, a, -, ch, -, m, -, hif⟩ := hp
    rw [Option.ite_none_right_eq_some, Option.some.injEq] at hif
    obtain ⟨hcond, heq⟩ := hif
    subst heq
    simp only [Bool.and_eq_true, Bool.not_eq_true'] at hcond
    exact ⟨hcond.1.1.2, hcond.1.2⟩

/-- A store whose mode tags are all nonnegative never matches the `-1`
sentinel tag. -/
theorem activityHasTag_neg_of_nonneg (s : Store)
    (hnn : ∀ m ∈ s.modes, 0 ≤ m.mode) (aid : Int) :
    activityHasTag s aid (-1) = false := by
  rw [activityHasTag, List.any_eq_false]
  intro m hm
  simp only [Bool.and_eq_true, beq_iff_eq, not_and]
  intro _ h2
  have := hnn m hm
  omega

/-- C8: over every period retrieval, a non-private requested mode returns
only rows of activities that carry the requested mode tag and do not carry
the private-matches-all tag, while a private requested mode applies no
private-match exclusion at all — the query equals the one that only
requires the requested tag (the `-1` restricted tag can never match, mode
tags being `u32` values). -/
theorem retrieve_activities_visibility (member_id character_id : String)
    (mode : ModeInfo) (ps pe : Nat) (s : Store)
    (hnn : ∀ m ∈ s.modes, 0 ≤ m.mode) :
    (mode.isPrivate = false →
      (∀ p ∈ retrieve_activities_for_member_since member_id mode ps pe s,
        activityHasTag s p.2.id mode.id = true ∧
        activityHasTag s p.2.id modePrivateMatchesAllId = false) ∧
      (∀ rows,
        retrieve_activities_for_character member_id character_id mode ps pe s
          = .ok rows →
        ∀ p ∈ rows, activityHasTag s p.2.id mode.id = true ∧
          activityHasTag s p.2.id modePrivateMatchesAllId = false)) ∧
    (mode.isPrivate = true →
      retrieve_activities_for_member_since member_id mode ps pe s =
        retrieve_member_rows_no_exclusion member_id mode.id ps pe s ∧
      retrieve_activities_for_character member_id character_id mode ps pe s =
        retrieve_character_rows_no_exclusion member_id character_id mode.id ps pe s) := by
  constructor
  · intro hpub
    have hr : restrict_mode_id mode = modePrivateMatchesAllId := by
      simp [restrict_mode_id, hpub]
    constructor
    · intro p hp
      have := retrieve_member_mem_tags member_id mode ps pe s p hp
      rwa [hr] at this
    · intro rows hrows p hp
      have := retrieve_character_mem_tags member_id character_id mode ps pe s
        rows hrows p hp
      rwa [hr] at this
  · intro hpriv
    have hr : restrict_mode_id mode = -1 := by
      simp [restrict_mode_id, hpriv]
    have hneg := activityHasTag_neg_of_nonneg s hnn
    constructor
    · simp only [retrieve_activities_for_member_since,
        retrieve_member_rows_no_exclusion, hr, hneg, Bool.not_false,
        Bool.and_true]
    · rcases hcr : get_character_row_id member_id character_id s with e | ci <;>
        simp only [retrieve_activities_for_character,
          retrieve_character_rows_no_exclusion, hcr, hr, hneg, Bool.not_false,
          Bool.and_true, Bind.bind, Except.bind]

/-- Witness for C8 at `storeC8` with the public mode 5 and the private
mode 32, member "m", character "c1", window 0-100. -/
theorem retrieve_activities_visibility_witness :
    ((ModeInfo.mk 5 false).isPrivate = false →
      (∀ p ∈ retrieve_activities_for_member_since "m" ⟨5, false⟩ 0 100 storeC8,
        activityHasTag storeC8 p.2.id (ModeInfo.mk 5 false).id = true ∧
        activityHasTag storeC8 p.2.id modePrivateMatchesAllId = false) ∧
      (∀ rows,
        retrieve_activities_for_character "m" "c1" ⟨5, false⟩ 0 100 storeC8
          = .ok rows →
        ∀ p ∈ rows, activityHasTag storeC8 p.2.id (ModeInfo.mk 5 false).id = true ∧
          activityHasTag storeC8 p.2.id modePrivateMatchesAllId = false)) ∧
    ((ModeInfo.mk 5 false).isPrivate = true →
      retrieve_activities_for_member_since "m" ⟨5, false⟩ 0 100 storeC8 =
        retrieve_member_rows_no_exclusion "m" (ModeInfo.mk 5 false).id 0 100 storeC8 ∧
      retrieve_activities_for_character "m" "c1" ⟨5, false⟩ 0 100 storeC8 =
        retrieve_character_rows_no_exclusion "m" "c1" (ModeInfo.mk 5 false).id 0 100 storeC8) :=
  retrieve_activities_visibility "m" "c1" ⟨5, false⟩ 0 100 storeC8 (by decide)

/-- The page-insert fold of `_update_activity_queue`: either every insert
succeeds and the queue is extended by exactly the non-magic ids in
processing order (no other table touched) with the counter counting them,
or the fold stops at the first failing insert with an error. -/
theorem queue_fold_spec (fail : FailSet) (crid : Int) :
    ∀ (acts : List ActivitySummary) (db : Db) (n : Nat),
      (∃ db' total,
        acts.foldlM (queue_insert_step fail crid) (db, n) = .ok (db', total) ∧
        db'.store = { db.store with activity_queue :=
          db.store.activity_queue ++ page_queue_rows crid acts } ∧
        total = n + (page_queue_rows crid acts).length) ∨
      acts.foldlM (queue_insert_step fail crid) (db, n) = .error () := by
  intro acts
  induction acts with
  | nil =>
      intro db n
      left
      exact ⟨db, n, rfl, by simp [page_queue_rows], by simp [page_queue_rows]⟩
  | cons a rest ih =>
      intro db n
      by_cases hmagic : (a.director_activity_hash == magic_gambit_private_1
          || a.director_activity_hash == magic_gambit_private_2) = true
      · have hm : a.director_activity_hash = magic_gambit_private_1 ∨
            a.director_activity_hash = magic_gambit_private_2 := by
          rcases Bool.or_eq_true_iff.mp hmagic with h | h
          · exact Or.inl (by simpa using h)
          · exact Or.inr (by simpa using h)
        have hc : (a.director_activity_hash == magic_gambit_private_1
            || a.director_activity_hash == magic_gambit_private_2
            || a.director_activity_hash == magic_gambit_private_2) = true := by
          rcases hm with h | h <;> simp [h]
        have hstep : queue_insert_step fail crid (db, n) a = .ok (db, n) := by
          simp [queue_insert_step, hc]
        have hpq : page_queue_rows crid (a :: rest) = page_queue_rows crid rest := by
          rcases hm with h | h <;> simp [page_queue_rows, List.filter_cons, h]
        rcases ih db n with ⟨db', total, hfold, hstore, htot⟩ | herr
        · left
          refine ⟨db', total, ?_, ?_, ?_⟩
          · rw [List.foldlM_cons, hstep]; exact hfold
          · rw [hpq]; exact hstore
          · rw [hpq]; exact htot
        · right
          rw [List.foldlM_cons, hstep]; exact herr
      · have hm : ¬a.director_activity_hash = magic_gambit_private_1 ∧
            ¬a.director_activity_hash = magic_gambit_private_2 := by
          simp only [Bool.or_eq_true, not_or, beq_iff_eq] at hmagic
          exact hmagic
        have hc : (a.director_activity_hash == magic_gambit_private_1
            || a.director_activity_hash == magic_gambit_private_2
            || a.director_activity_hash == magic_gambit_private_2) = false := by
          simp [hm.1, hm.2]
        have hpq : page_queue_rows crid (a :: rest) =
            QueueRow.mk a.instance_id crid :: page_queue_rows crid rest := by
          simp [page_queue_rows, List.filter_cons, hm.1, hm.2]
        by_cases hfail : fail db.stmt = true
        · right
          have hstep : queue_insert_step fail crid (db, n) a = .error () := by
            simp [queue_insert_step, hc, exec, hfail]
            rfl
          rw [List.foldlM_cons, hstep]; rfl
        · rw [Bool.not_eq_true] at hfail
          have hstep : queue_insert_step fail crid (db, n) a =
              .ok (⟨{ db.store with activity_queue := db.store.activity_queue ++
                [⟨a.instance_id, crid⟩] }, db.stmt + 1⟩, n + 1) := by
            simp [queue_insert_step, hc, exec, hfail]
            rfl
          rcases ih ⟨{ db.store with activity_queue := db.store.activity_queue ++
              [⟨a.instance_id, crid⟩] }, db.stmt + 1⟩ (n + 1) with
            ⟨db', total, hfold, hstore, htot⟩ | herr
          · left
            refine ⟨db', total, ?_, ?_, ?_⟩
            · rw [List.foldlM_cons, hstep]; exact hfold
            · rw [hstore, hpq]
              simp [List.append_assoc]
            · rw [htot, hpq]
              simp only [List.length_cons]
              omega
          · right
            rw [List.foldlM_cons, hstep]; exact herr

/-- C7: when the collaborator returns a page for the scope, queue
population processes it oldest-first (the page reversed), skips exactly
the activities whose director-activity-hash is 2526740498 or 248695599,
and runs inside one transaction: either every insert succeeds and the call
returns success with the queue extended by exactly the non-magic ids of
the reversed page — no other table touched — and both counters equal to
their number, or some insert failed, the whole page is rolled back (the
connection state is exactly the initial one) and the error is
surfaced. -/
theorem update_activity_queue_page (fail : FailSet)
    (api : String → String → Int → Int → Int → Option (List ActivitySummary))
    (crid : Int) (member_id character_id : String) (platform : Int)
    (modeId : Int) (db : Db) (page : List ActivitySummary)
    (hpage : api member_id character_id platform modeId
      (get_max_activity_id crid modeId db.store) = some page) :
    (∃ db' n,
      _update_activity_queue fail api crid member_id character_id platform
        modeId db = (.ok ⟨n, n⟩, db') ∧
      db'.store = { db.store with activity_queue :=
        db.store.activity_queue ++ page_queue_rows crid page.reverse } ∧
      n = (page_queue_rows crid page.reverse).length) ∨
    _update_activity_queue fail api crid member_id character_id platform
      modeId db = (.error (), db) := by
  rcases queue_fold_spec fail crid page.reverse db 0 with
    ⟨db', total, hfold, hstore, htot⟩ | herr
  · left
    refine ⟨db', total, ?_, hstore, by omega⟩
    simp [_update_activity_queue, hpage, hfold]
  · right
    simp [_update_activity_queue, hpage, herr]

/-- Witness for C7: an empty store, an always-succeeding connection, and a
page holding one ordinary activity (id 100) and one magic-hash artifact
(id 101). -/
theorem update_activity_queue_page_witness :
    (∃ db' n,
      _update_activity_queue noFail apiC7 1 "m" "c1" 3 5 ⟨Store.empty, 0⟩
        = (.ok ⟨n, n⟩, db') ∧
      db'.store = { (⟨Store.empty, 0⟩ : Db).store with activity_queue :=
        ((⟨Store.empty, 0⟩ : Db).store.activity_queue ++
          page_queue_rows 1 pageC7.reverse) } ∧
      n = (page_queue_rows 1 pageC7.reverse).length) ∨
    _update_activity_queue noFail apiC7 1 "m" "c1" 3 5 ⟨Store.empty, 0⟩
      = (.error (), ⟨Store.empty, 0⟩) :=
  update_activity_queue_page noFail apiC7 1 "m" "c1" 3 5 ⟨Store.empty, 0⟩
    pageC7 rfl

/-- Bind destructuring for `Except`. -/
theorem except_bind_ok {α β : Type} {x : Except Unit α} {k : α → Except Unit β}
    {b : β} (h : x >>= k = .ok b) : ∃ a, x = .ok a ∧ k a = .ok b := by
  rcases x with e | a
  · exact absurd h (by simp [Bind.bind, Except.bind])
  · exact ⟨a, rfl, by simpa [Bind.bind, Except.bind] using h⟩

/-- Table preservation is reflexive. -/
theorem preserves_refl (s : Store) : Preserves s s :=
  ⟨fun _ h => h, fun _ h => h, fun _ h => h, fun _ h => h, fun _ h => h,
   fun _ h => h, fun _ h => h⟩

/-- Table preservation is transitive. -/
theorem preserves_trans {s t u : Store} (h1 : Preserves s t)
    (h2 : Preserves t u) : Preserves s u := by
  obtain ⟨a1, b1, c1, d1, e1, f1, g1⟩ := h1
  obtain ⟨a2, b2, c2, d2, e2, f2, g2⟩ := h2
  exact ⟨fun r h => a2 r (a1 r h), fun r h => b2 r (b1 r h),
    fun r h => c2 r (c1 r h), fun r h => d2 r (d1 r h),
    fun r h => e2 r (e1 r h), fun r h => f2 r (f1 r h),
    fun r h => g2 r (g1 r h)⟩

/-- A store whose tracked tables are each extended preserves membership. -/
theorem preserves_extend {s s' : Store}
    (h1 : ∃ l, s'.activity = s.activity ++ l)
    (h2 : ∃ l, s'.team_result = s.team_result ++ l)
    (h3 : ∃ l, s'.modes = s.modes ++ l)
    (h4 : ∃ l, s'.character = s.character ++ l)
    (h5 : ∃ l, s'.character_activity_stats = s.character_activity_stats ++ l)
    (h6 : ∃ l, s'.medal_result = s.medal_result ++ l)
    (h7 : ∃ l, s'.weapon_result = s.weapon_result ++ l) :
    Preserves s s' := by
  obtain ⟨l1, e1⟩ := h1
  obtain ⟨l2, e2⟩ := h2
  obtain ⟨l3, e3⟩ := h3
  obtain ⟨l4, e4⟩ := h4
  obtain ⟨l5, e5⟩ := h5
  obtain ⟨l6, e6⟩ := h6
  obtain ⟨l7, e7⟩ := h7
  refine ⟨?_, ?_, ?_, ?_, ?_, ?_, ?_⟩ <;> intro r hr
  · rw [e1]; exact List.mem_append_left _ hr
  · rw [e2]; exact List.mem_append_left _ hr
  · rw [e3]; exact List.mem_append_left _ hr
  · rw [e4]; exact List.mem_append_left _ hr
  · rw [e5]; exact List.mem_append_left _ hr
  · rw [e6]; exact List.mem_append_left _ hr
  · rw [e7]; exact List.mem_append_left _ hr

/-- A successful `exec` applies the row transformation and advances the
statement counter. -/
theorem exec_ok_store {fail : FailSet} {f : Store → Store} {db db' : Db}
    (h : exec fail f db = .ok db') : db' = ⟨f db.store, db.stmt + 1⟩ := by
  unfold exec at h
  split at h
  · simp at h
  · exact (Except.ok.inj h).symm

/-- Specification of a successful member upsert: the tracked tables are
preserved. -/
theorem insert_member_id_ok {fail : FailSet} {mid : String} {pid : Int}
    {dn : String} {db : Db} {rid : Int} {db' : Db}
    (h : insert_member_id fail mid pid dn db = .ok (rid, db')) :
    Preserves db.store db'.store := by
  unfold insert_member_id at h
  obtain ⟨db1, hexec, hrest⟩ := except_bind_ok h
  have hdb1 := exec_ok_store hexec
  rcases hf : db1.store.member.find? (fun m => m.member_id == mid) with _ | m
  · rw [hf] at hrest; simp at hrest
  · rw [hf] at hrest
    have hp : (m.id, db1) = (rid, db') := Except.ok.inj hrest
    have hdb' : db' = db1 := (congrArg Prod.snd hp).symm
    subst hdb'
    rw [hdb1]
    by_cases hm : db.store.member.any (fun m => m.member_id == mid) = true
    · simp only [hm, if_true]
      exact preserves_extend ⟨[], by simp⟩ ⟨[], by simp⟩ ⟨[], by simp⟩
        ⟨[], by simp⟩ ⟨[], by simp⟩ ⟨[], by simp⟩ ⟨[], by simp⟩
    · simp only [hm, Bool.false_eq_true, if_false]
      exact preserves_extend ⟨[], by simp⟩ ⟨[], by simp⟩ ⟨[], by simp⟩
        ⟨[], by simp⟩ ⟨[], by simp⟩ ⟨[], by simp⟩ ⟨[], by simp⟩

/-- Specification of a successful character insert-or-ignore: the tracked
tables are preserved and the returned row id belongs to a character row
with the requested character id. -/
theorem insert_character_id_ok {fail : FailSet} {cid : String} {clsid : Nat}
    {mrid : Int} {db : Db} {rid : Int} {db' : Db}
    (h : insert_character_id fail cid clsid mrid db = .ok (rid, db')) :
    Preserves db.store db'.store ∧
    ∃ ch ∈ db'.store.character, ch.character_id = cid ∧ ch.id = rid := by
  unfold insert_character_id at h
  obtain ⟨db1, hexec, hrest⟩ := except_bind_ok h
  have hdb1 := exec_ok_store hexec
  rcases hf : (db1.store.character.find? (fun c =>
      c.character_id == cid && c.member == mrid)) with _ | c
  · rw [hf] at hrest; simp at hrest
  · rw [hf] at hrest
    have hp : (c.id, db1) = (rid, db') := Except.ok.inj hrest
    have hcmem : c ∈ db1.store.character := List.mem_of_find?_eq_some hf
    have hcpred := List.find?_some hf
    simp only [Bool.and_eq_true, beq_iff_eq] at hcpred
    have hdb' : db' = db1 := (congrArg Prod.snd hp).symm
    have hrid : rid = c.id := (congrArg Prod.fst hp).symm
    subst hdb'
    refine ⟨?_, c, hcmem, hcpred.1, hrid.symm⟩
    rw [hdb1]
    by_cases hm : db.store.character.any (fun c => c.character_id == cid) = true
    · simp only [hm, if_true]
      exact preserves_refl _
    · simp only [hm, Bool.false_eq_true, if_false]
      refine preserves_extend ⟨[], by simp⟩ ⟨[], by simp⟩ ⟨[], by simp⟩
        ⟨[⟨db.store.next_row_id, cid, mrid, clsid⟩], rfl⟩ ⟨[], by simp⟩
        ⟨[], by simp⟩ ⟨[], by simp⟩

/-- A successful medal-rows fold preserves the tracked tables and leaves
every medal row of the entry present. -/
theorem medal_fold_ok {fail : FailSet} {cas_id : Int} :
    ∀ (kvs : List (String × Nat)) (db db' : Db),
      kvs.foldlM (medal_insert_step fail cas_id) db = .ok db' →
      Preserves db.store db'.store ∧
      ∀ kv ∈ kvs, MedalResultRow.mk kv.1 kv.2 cas_id ∈ db'.store.medal_result := by
  intro kvs
  induction kvs with
  | nil =>
      intro db db' h
      have heq : db = db' := by simpa [pure, Except.pure] using h
      subst heq
      exact ⟨preserves_refl _, by simp⟩
  | cons kv rest ih =>
      intro db db' h
      rw [List.foldlM_cons] at h
      obtain ⟨db1, hstep, hrest⟩ := except_bind_ok h
      unfold medal_insert_step at hstep
      have hdb1 := exec_ok_store hstep
      obtain ⟨hpres1, hmem⟩ := ih db1 db' hrest
      constructor
      · refine preserves_trans ?_ hpres1
        rw [hdb1]
        exact preserves_extend ⟨[], by simp⟩ ⟨[], by simp⟩ ⟨[], by simp⟩
          ⟨[], by simp⟩ ⟨[], by simp⟩ ⟨[⟨kv.1, kv.2, cas_id⟩], rfl⟩ ⟨[], by simp⟩
      · intro kv' hkv'
        rcases List.mem_cons.mp hkv' with h' | h'
        · subst h'
          refine hpres1.medal_result _ ?_
          rw [hdb1]
          simp
        · exact hmem kv' h'

/-- A successful weapon-rows fold preserves the tracked tables and leaves
every weapon row of the entry present. -/
theorem weapon_fold_ok {fail : FailSet} {cas_id : Int} :
    ∀ (ws : List WeaponEntryData) (db db' : Db),
      ws.foldlM (weapon_insert_step fail cas_id) db = .ok db' →
      Preserves db.store db'.store ∧
      ∀ w ∈ ws, WeaponResultRow.mk w.reference_id w.unique_weapon_kills
        w.unique_weapon_precision_kills cas_id ∈ db'.store.weapon_result := by
  intro ws
  induction ws with
  | nil =>
      intro db db' h
      have heq : db = db' := by simpa [pure, Except.pure] using h
      subst heq
      exact ⟨preserves_refl _, by simp⟩
  | cons w rest ih =>
      intro db db' h
      rw [List.foldlM_cons] at h
      obtain ⟨db1, hstep, hrest⟩ := except_bind_ok h
      unfold weapon_insert_step at hstep
      have hdb1 := exec_ok_store hstep
      obtain ⟨hpres1, hmem⟩ := ih db1 db' hrest
      constructor
      · refine preserves_trans ?_ hpres1
        rw [hdb1]
        exact preserves_extend ⟨[], by simp⟩ ⟨[], by simp⟩ ⟨[], by simp⟩
          ⟨[], by simp⟩ ⟨[], by simp⟩ ⟨[], by simp⟩
          ⟨[⟨w.reference_id, w.unique_weapon_kills,
            w.unique_weapon_precision_kills, cas_id⟩], rfl⟩
      · intro w' hw'
        rcases List.mem_cons.mp hw' with h' | h'
        · subst h'
          refine hpres1.weapon_result _ ?_
          rw [hdb1]
          simp
        · exact hmem w' h'

/-- A successful team-rows fold preserves the tracked tables and leaves
every team row present. -/
theorem team_fold_ok {fail : FailSet} {arid : Int} :
    ∀ (ts : List TeamEntryData) (db db' : Db),
      ts.foldlM (team_insert_step fail arid) db = .ok db' →
      Preserves db.store db'.store ∧
      ∀ t ∈ ts, TeamResultRow.mk t.team t.score t.standing arid
        ∈ db'.store.team_result := by
  intro ts
  induction ts with
  | nil =>
      intro db db' h
      have heq : db = db' := by simpa [pure, Except.pure] using h
      subst heq
      exact ⟨preserves_refl _, by simp⟩
  | cons t rest ih =>
      intro db db' h
      rw [List.foldlM_cons] at h
      obtain ⟨db1, hstep, hrest⟩ := except_bind_ok h
      unfold team_insert_step at hstep
      have hdb1 := exec_ok_store hstep
      obtain ⟨hpres1, hmem⟩ := ih db1 db' hrest
      constructor
      · refine preserves_trans ?_ hpres1
        rw [hdb1]
        exact preserves_extend ⟨[], by simp⟩
          ⟨[⟨t.team, t.score, t.standing, arid⟩], rfl⟩ ⟨[], by simp⟩
          ⟨[], by simp⟩ ⟨[], by simp⟩ ⟨[], by simp⟩ ⟨[], by simp⟩
      · intro t' ht'
        rcases List.mem_cons.mp ht' with h' | h'
        · subst h'
          refine hpres1.team_result _ ?_
          rw [hdb1]
          simp
        · exact hmem t' h'

/-- A successful mode-tag-rows fold preserves the tracked tables and
leaves every mode tag row present. -/
theorem mode_fold_ok {fail : FailSet} {arid : Int} :
    ∀ (ms : List Int) (db db' : Db),
      ms.foldlM (mode_insert_step fail arid) db = .ok db' →
      Preserves db.store db'.store ∧
      ∀ mo ∈ ms, ModeRow.mk mo arid ∈ db'.store.modes := by
  intro ms
  induction ms with
  | nil =>
      intro db db' h
      have heq : db = db' := by simpa [pure, Except.pure] using h
      subst heq
      exact ⟨preserves_refl _, by simp⟩
  | cons mo rest ih =>
      intro db db' h
      rw [List.foldlM_cons] at h
      obtain ⟨db1, hstep, hrest⟩ := except_bind_ok h
      unfold mode_insert_step at hstep
      have hdb1 := exec_ok_store hstep
      obtain ⟨hpres1, hmem⟩ := ih db1 db' hrest
      constructor
      · refine preserves_trans ?_ hpres1
        rw [hdb1]
        exact preserves_extend ⟨[], by simp⟩ ⟨[], by simp⟩
          ⟨[⟨mo, arid⟩], rfl⟩ ⟨[], by simp⟩ ⟨[], by simp⟩ ⟨[], by simp⟩
          ⟨[], by simp⟩
      · intro mo' hmo'
        rcases List.mem_cons.mp hmo' with h' | h'
        · subst h'
          refine hpres1.modes _ ?_
          rw [hdb1]
          simp
        · exact hmem mo' h'

/-- Specification of a successful stats-row insert for one participant:
the tracked tables are preserved and a stats row for (character, activity)
with all its medal and weapon child rows is present. -/
theorem insert_cas_ok {fail : FailSet} {entry : PgcrEntryData}
    {crid arid : Int} {db db' : Db}
    (h : _insert_character_activity_stats fail entry crid arid db = .ok db') :
    Preserves db.store db'.store ∧
    ∃ casrow ∈ db'.store.character_activity_stats,
      casrow.character = crid ∧ casrow.activity = arid ∧
      (∀ kv ∈ entry.medals,
        MedalResultRow.mk kv.1 kv.2 casrow.id ∈ db'.store.medal_result) ∧
      (∀ w ∈ entry.weapons.getD [],
        WeaponResultRow.mk w.reference_id w.unique_weapon_kills
          w.unique_weapon_precision_kills casrow.id ∈ db'.store.weapon_result) := by
  unfold _insert_character_activity_stats at h
  obtain ⟨db1, hexec, h⟩ := except_bind_ok h
  have hdb1 := exec_ok_store hexec
  rcases hf : (db1.store.character_activity_stats.find? (fun r =>
      r.activity == arid && r.character == crid)) with _ | fr
  · rw [hf] at h
    simp [Bind.bind, Except.bind] at h
  · rw [hf] at h
    obtain ⟨casid, hfind, h⟩ := except_bind_ok h
    have hcasid : fr.id = casid := Except.ok.inj hfind
    subst hcasid
    have hfrmem : fr ∈ db1.store.character_activity_stats :=
      List.mem_of_find?_eq_some hf
    have hfrpred := List.find?_some hf
    simp only [Bool.and_eq_true, beq_iff_eq] at hfrpred
    obtain ⟨db2, hmedal, h⟩ := except_bind_ok h
    obtain ⟨hpres2, hmedmem⟩ := medal_fold_ok entry.medals db1 db2 hmedal
    have hpres01 : Preserves db.store db1.store := by
      rw [hdb1]
      exact preserves_extend ⟨[], by simp⟩ ⟨[], by simp⟩ ⟨[], by simp⟩
        ⟨[], by simp⟩ ⟨[⟨db.store.next_row_id, crid, arid, entry.team⟩], rfl⟩
        ⟨[], by simp⟩ ⟨[], by simp⟩
    rcases hw : entry.weapons with _ | ws
    · rw [hw] at h
      have hdb2 : db2 = db' := Except.ok.inj h
      subst hdb2
      refine ⟨preserves_trans hpres01 hpres2, fr,
        hpres2.character_activity_stats _ hfrmem, hfrpred.2, hfrpred.1,
        hmedmem, ?_⟩
      simp [hw]
    · rw [hw] at h
      obtain ⟨hpres3, hwepmem⟩ := weapon_fold_ok ws db2 db' h
      refine ⟨preserves_trans hpres01 (preserves_trans hpres2 hpres3), fr,
        hpres3.character_activity_stats _
          (hpres2.character_activity_stats _ hfrmem),
        hfrpred.2, hfrpred.1, ?_, ?_⟩
      · intro kv hkv
        exact hpres3.medal_result _ (hmedmem kv hkv)
      · intro w hwmem
        simp only [hw, Option.getD_some] at hwmem
        exact hwepmem w hwmem

/-- All of one entry's data survives into any store that preserves the
tracked tables. -/
theorem entry_committed_mono {e : PgcrEntryData} {arid : Int} {s s' : Store}
    (hp : Preserves s s') (h : EntryCommitted e arid s) :
    EntryCommitted e arid s' := by
  obtain ⟨ch, hch, hcid, casrow, hcas, h1, h2, hmed, hwep⟩ := h
  exact ⟨ch, hp.character _ hch, hcid, casrow,
    hp.character_activity_stats _ hcas, h1, h2,
    fun kv hkv => hp.medal_result _ (hmed kv hkv),
    fun w hw => hp.weapon_result _ (hwep w hw)⟩

/-- Specification of one successful participant-entry step: the tracked
tables are preserved and the entry's data is committed. -/
theorem entry_insert_step_ok {fail : FailSet} {arid : Int} {db : Db}
    {entry : PgcrEntryData} {db' : Db}
    (h : entry_insert_step fail arid db entry = .ok db') :
    Preserves db.store db'.store ∧ EntryCommitted entry arid db'.store := by
  unfold entry_insert_step at h
  obtain ⟨p1, hm, h⟩ := except_bind_ok h
  rcases p1 with ⟨mrid, db1⟩
  have hpres1 := insert_member_id_ok hm
  obtain ⟨p2, hc, h⟩ := except_bind_ok h
  rcases p2 with ⟨crid, db2⟩
  obtain ⟨hpres2, ch, hchmem, hchcid, hchid⟩ := insert_character_id_ok hc
  obtain ⟨hpres3, casrow, hcasmem, hcaschar, hcasact, hmed, hwep⟩ :=
    insert_cas_ok h
  refine ⟨preserves_trans hpres1 (preserves_trans hpres2 hpres3),
    ch, hpres3.character _ hchmem, hchcid, casrow, hcasmem,
    hcaschar.trans hchid.symm, hcasact, hmed, hwep⟩

/-- A successful participant-entries fold preserves the tracked tables and
commits every entry's data. -/
theorem entries_fold_ok {fail : FailSet} {arid : Int} :
    ∀ (es : List PgcrEntryData) (db db' : Db),
      es.foldlM (entry_insert_step fail arid) db = .ok db' →
      Preserves db.store db'.store ∧
      ∀ e ∈ es, EntryCommitted e arid db'.store := by
  intro es
  induction es with
  | nil =>
      intro db db' h
      have heq : db = db' := by simpa [pure, Except.pure] using h
      subst heq
      exact ⟨preserves_refl _, by simp⟩
  | cons e rest ih =>
      intro db db' h
      rw [List.foldlM_cons] at h
      obtain ⟨db1, hstep, hrest⟩ := except_bind_ok h
      obtain ⟨hpres1, hpost⟩ := entry_insert_step_ok hstep
      obtain ⟨hpres2, hposts⟩ := ih db1 db' hrest
      refine ⟨preserves_trans hpres1 hpres2, ?_⟩
      intro e' he'
      rcases List.mem_cons.mp he' with h' | h'
      · subst h'
        exact entry_committed_mono hpres2 hpost
      · exact hposts e' h'

/-- Specification of a successful queue-entry delete: the tracked tables
are preserved and no row for this character and activity id remains. -/
theorem remove_from_queue_ok {fail : FailSet} {crid iid : Int} {db db' : Db}
    (h : remove_from_activity_queue fail crid iid db = .ok db') :
    Preserves db.store db'.store ∧
    ∀ q ∈ db'.store.activity_queue,
      ¬(q.character = crid ∧ q.activity_id = iid) := by
  unfold remove_from_activity_queue at h
  have hdb := exec_ok_store h
  constructor
  · rw [hdb]
    exact preserves_extend ⟨[], by simp⟩ ⟨[], by simp⟩ ⟨[], by simp⟩
      ⟨[], by simp⟩ ⟨[], by simp⟩ ⟨[], by simp⟩ ⟨[], by simp⟩
  · intro q hq
    rw [hdb] at hq
    simp only [List.mem_filter] at hq
    rintro ⟨h1, h2⟩
    simp [h1, h2] at hq

/-- Specification of a successful activity-row-id fetch: a stored row with
the requested activity id and the returned row id. -/
theorem get_activity_row_id_ok {iid : Int} {s : Store} {rid : Int}
    (h : get_activity_row_id iid s = .ok rid) :
    ∃ r ∈ s.activity, r.activity_id = iid ∧ r.id = rid := by
  unfold get_activity_row_id at h
  rcases hf : (s.activity.find? (fun r => r.activity_id == iid)) with _ | r
  · rw [hf] at h; simp at h
  · rw [hf] at h
    have hrid : r.id = rid := Except.ok.inj h
    exact ⟨r, List.mem_of_find?_eq_some hf,
      by simpa using List.find?_some hf, hrid⟩

/-- Master lemma for the fresh-insert path: when the activity id has no
stored row and the full insert sequence succeeds, every piece of the
carnage report is committed and the queue entry is gone. -/
theorem insert_activity_fresh_ok {fail : FailSet} {data : PgcrData}
    {crid : Int} {db db' : Db}
    (h : _insert_activity_fresh fail data crid db = .ok db') :
    InsertCommitted data crid db' := by
  unfold _insert_activity_fresh at h
  obtain ⟨db1, hexec, h⟩ := except_bind_ok h
  obtain ⟨arid, hget, h⟩ := except_bind_ok h
  obtain ⟨fr, hfrmem, hfrid, hfrrow⟩ := get_activity_row_id_ok hget
  obtain ⟨db2, hteams, h⟩ := except_bind_ok h
  obtain ⟨hpresT, hteamrows⟩ := team_fold_ok data.teams db1 db2 hteams
  obtain ⟨db3, hmodes, h⟩ := except_bind_ok h
  obtain ⟨hpresM, hmoderows⟩ :=
    mode_fold_ok data.activity_details.modes db2 db3 hmodes
  obtain ⟨db4, hentries, h⟩ := except_bind_ok h
  obtain ⟨hpresE, hentryposts⟩ := entries_fold_ok data.entries db3 db4 hentries
  obtain ⟨hpresQ, hqgone⟩ := remove_from_queue_ok h
  refine ⟨fr, ?_, hfrid, ?_, ?_, ?_, hqgone⟩
  · exact hpresQ.activity _ (hpresE.activity _ (hpresM.activity _
      (hpresT.activity _ hfrmem)))
  · intro t ht
    rw [hfrrow]
    exact hpresQ.team_result _ (hpresE.team_result _
      (hpresM.team_result _ (hteamrows t ht)))
  · intro mo hmo
    rw [hfrrow]
    exact hpresQ.modes _ (hpresE.modes _ (hmoderows mo hmo))
  · intro e he
    rw [hfrrow]
    exact entry_committed_mono hpresQ (hentryposts e he)

/-- C1: when the event id of the detail payload already has a stored
activity row, the per-event insert returns success and leaves the
connection — store and statement counter — exactly as it was: no second
activity row, no other writes, a pure no-op. -/
theorem insert_activity_idempotent (fail : FailSet) (data : PgcrData)
    (crid : Int) (db : Db)
    (hstored : ∃ r ∈ db.store.activity,
      r.activity_id = data.activity_details.instance_id) :
    insert_activity fail data crid db = (.ok (), db) := by
  have hfind : ∃ r, db.store.activity.find? (fun r =>
      r.activity_id == data.activity_details.instance_id) = some r := by
    rw [← Option.isSome_iff_exists]
    refine List.find?_isSome.mpr ?_
    obtain ⟨r, hr, he⟩ := hstored
    exact ⟨r, hr, by simp [he]⟩
  obtain ⟨r, hr⟩ := hfind
  unfold insert_activity _insert_activity get_activity_row_id
  rw [hr]

/-- Witness for C1: re-inserting stored activity 100 into
`storeWithActivity100` is a successful no-op. -/
theorem insert_activity_idempotent_witness :
    insert_activity noFail pgcrSample 1 ⟨storeWithActivity100, 0⟩ =
      (.ok (), ⟨storeWithActivity100, 0⟩) :=
  insert_activity_idempotent noFail pgcrSample 1 ⟨storeWithActivity100, 0⟩
    ⟨⟨1, 100, 10, 5, 3, 7, 1⟩, by decide, rfl⟩

/-- C2: the per-event insert is atomic — if any step of the insert
sequence fails, the transaction is rolled back and the connection is left
exactly as it was; on success either the event id was already stored (and
nothing changed) or every piece of the carnage report — the activity row,
all team rows, all mode tag rows, and every participant's member/character
upsert, stats row, medal rows and weapon rows — is committed, with the
queue entry deleted. -/
theorem insert_activity_atomic (fail : FailSet) (data : PgcrData)
    (crid : Int) (db : Db) :
    match insert_activity fail data crid db with
    | (.error _, dbf) => dbf = db
    | (.ok _, dbf) =>
        ((∃ r ∈ db.store.activity,
            r.activity_id = data.activity_details.instance_id) ∧ dbf = db) ∨
        InsertCommitted data crid dbf := by
  unfold insert_activity
  rcases hbody : _insert_activity fail data crid db with e | dbf
  · exact rfl
  · show (∃ r ∈ db.store.activity,
        r.activity_id = data.activity_details.instance_id) ∧ dbf = db ∨
      InsertCommitted data crid dbf
    rcases hf : (db.store.activity.find? (fun r =>
        r.activity_id == data.activity_details.instance_id)) with _ | r
    · right
      have hfresh2 : _insert_activity_fresh fail data crid db = .ok dbf := by
        unfold _insert_activity get_activity_row_id at hbody
        rw [hf] at hbody
        exact hbody
      exact insert_activity_fresh_ok hfresh2
    · left
      have heq : dbf = db := by
        unfold _insert_activity get_activity_row_id at hbody
        rw [hf] at hbody
        have h2 : (Except.ok db : Except Unit Db) = .ok dbf := hbody
        exact (Except.ok.inj h2).symm
      exact ⟨⟨r, List.mem_of_find?_eq_some hf,
        by simpa using List.find?_some hf⟩, heq⟩

/-- C3 counterexample: with activity 100 already stored and the queue
entry (character 1, activity 100) still present, the per-event insert for
activity 100 returns success yet the queue entry remains — success does
not always delete the queue entry. -/
theorem queue_entry_survives_noop_insert :
    insert_activity noFail pgcrSample 1 ⟨storeWithActivity100, 0⟩ =
      (.ok (), ⟨storeWithActivity100, 0⟩) ∧
    QueueRow.mk 100 1 ∈
      (insert_activity noFail pgcrSample 1
        ⟨storeWithActivity100, 0⟩).2.store.activity_queue := by
  constructor
  · rfl
  · decide

/-- C3 amended: the queue entry (character, event id) is deleted whenever
a successful per-event insert actually wrote the event — the event id had
no stored row; when the insert succeeds because the id was already stored,
it is a pure no-op and the queue entry is left in place (see the
counterexample). -/
theorem queue_entry_removed_on_fresh_insert (fail : FailSet) (data : PgcrData)
    (crid : Int) (db : Db)
    (hfresh : ∀ r ∈ db.store.activity,
      r.activity_id ≠ data.activity_details.instance_id)
    (hok : (insert_activity fail data crid db).1 = .ok ()) :
    ∀ q ∈ (insert_activity fail data crid db).2.store.activity_queue,
      ¬(q.character = crid ∧
        q.activity_id = data.activity_details.instance_id) := by
  have hfind : db.store.activity.find? (fun r =>
      r.activity_id == data.activity_details.instance_id) = none := by
    rw [List.find?_eq_none]
    intro r hr
    simpa using hfresh r hr
  unfold insert_activity at hok ⊢
  rcases hbody : _insert_activity fail data crid db with e | dbf
  · rw [hbody] at hok
    simp at hok
  · have hfresh2 : _insert_activity_fresh fail data crid db = .ok dbf := by
      unfold _insert_activity get_activity_row_id at hbody
      rw [hfind] at hbody
      exact hbody
    obtain ⟨arow, -, -, -, -, -, hq⟩ := insert_activity_fresh_ok hfresh2
    exact hq

/-- Witness for C3: inserting the unstored activity 100 from
`storeQueuedOnly` succeeds and its queue entry (character 1, activity 100)
is gone. -/
theorem queue_entry_removed_on_fresh_insert_witness :
    decide (QueueRow.mk 100 1 ∈ (insert_activity noFail pgcrSample 1
      ⟨storeQueuedOnly, 0⟩).2.store.activity_queue) = false := by
  rw [decide_eq_false_iff_not]
  intro hmem
  exact queue_entry_removed_on_fresh_insert noFail pgcrSample 1
    ⟨storeQueuedOnly, 0⟩ (by decide) rfl ⟨100, 1⟩ hmem ⟨rfl, rfl⟩

/-- Bind of a success value reduces. -/
theorem except_ok_bind {α β : Type} (a : α) (f : α → Except Unit β) :
    (Except.ok a >>= f) = f a := rfl

/-- The accumulator fold of `sync` over the character list equals the
per-character pass list of `sync_passes` with the counts summed at the
end. -/
theorem sync_fold_eq_passes (fail : FailSet)
    (api : String → String → Int → Int → Int → Option (List ActivitySummary))
    (pgcr : Int → Except Unit (Option PgcrData))
    (member_id : String) (platform : Int) (member_row_id : Int) :
    ∀ (chs : List CharacterMeta) (s q : Nat) (db : Db),
      (chs.foldlM
        (sync_loop_body fail api pgcr member_id platform member_row_id)
        (s, q, db))
      = (sync_passes fail api pgcr member_id platform member_row_id chs db).map
          (fun r =>
            (s + (r.1.map (fun p => p.1.total_synced + p.2.total_synced)).sum,
             q + (r.1.map (fun p => (p.1.total_available + p.2.total_available)
               - (p.1.total_synced + p.2.total_synced))).sum,
             r.2)) := by
  intro chs
  induction chs with
  | nil =>
      intro s q db
      simp [sync_passes, Except.map, pure, Except.pure]
  | cons ch rest ih =>
      intro s q db
      rw [List.foldlM_cons]
      rcases hic : (insert_character_id fail ch.id ch.class_id member_row_id db)
        with e | p
      · simp [sync_passes, sync_character_pass, sync_loop_body, hic,
          Bind.bind, Except.bind, Except.map]
      · rcases p with ⟨crid, db1⟩
        rcases hsa : sync_activities fail pgcr crid db1 with ⟨db2, a⟩
        rcases huq : (update_activity_queue fail api crid member_id ch.id
            platform db2) with e | p2
        · simp [sync_passes, sync_character_pass, sync_loop_body, hic, hsa,
            huq, Bind.bind, Except.bind, Except.map]
        · rcases p2 with ⟨b, db3⟩
          rcases hsc : sync_activities fail pgcr crid db3 with ⟨db4, c⟩
          have hstep : sync_loop_body fail api pgcr member_id platform
              member_row_id (s, q, db) ch
              = Except.ok (s + (a.total_synced + c.total_synced),
                  q + ((a.total_available + c.total_available)
                    - (a.total_synced + c.total_synced)), db4) := by
            simp [sync_loop_body, hic, hsa, huq, hsc, Bind.bind, Except.bind]
          have hpass : sync_character_pass fail api pgcr member_id platform
              member_row_id ch db = .ok (a, c, db4) := by
            simp [sync_character_pass, hic, hsa, huq, hsc, Bind.bind,
              Except.bind]
          rw [hstep, except_ok_bind, ih]
          rcases hrest : (sync_passes fail api pgcr member_id platform
              member_row_id rest db4) with e | pr
          · simp [sync_passes, hpass, hrest, Bind.bind, Except.bind, Except.map]
          · rcases pr with ⟨rs, dbf⟩
            simp only [sync_passes, hpass, hrest, Bind.bind, Except.bind,
              Except.map, List.map_cons, List.sum_cons, except_ok_bind]
            refine congrArg Except.ok ?_
            simp only [Prod.mk.injEq]
            exact ⟨by omega, by omega, trivial⟩

/-- C6 amended: per roster entry the top-level sync runs Drain, then
Discover (private scope then public scope), then Drain — one discover pass
between two drains — and returns the synced count as the sum over roster
entries of the two drain passes' synced counts and the still-queued count
as the sum of their `available - synced` differences; the discover pass's
own counts are discarded. -/
theorem sync_is_drain_discover_drain (fail : FailSet)
    (api : String → String → Int → Int → Int → Option (List ActivitySummary))
    (pgcr : Int → Except Unit (Option PgcrData))
    (member_id : String) (platform : Int) (display_name : String)
    (characters : List CharacterMeta) (db : Db) :
    sync fail api pgcr member_id platform display_name characters db =
      sync_amended fail api pgcr member_id platform display_name characters db := by
  unfold sync sync_amended
  rcases hm : (insert_member_id fail member_id platform display_name db)
    with e | p
  · rfl
  · rcases p with ⟨mrid, db1⟩
    simp only [except_ok_bind]
    rw [sync_fold_eq_passes]
    rcases hp : (sync_passes fail api pgcr member_id platform mrid
        characters db1) with e | pr
    · rfl
    · rcases pr with ⟨rs, dbf⟩
      simp [Except.map, except_ok_bind]

/-- C6 counterexample: with one character, an empty store, and a
collaborator that reports activity 100 from since-id 0 and activity 200
from since-id 100, the source's sync returns 1 synced (drain, discover,
drain: activity 200 is never discovered), while the claim's
discover-drain-discover-drain order would return 2. -/
theorem sync_order_counterexample :
    ((sync noFail apiC6 pgcrC6 "m" 3 "n" [⟨"c1", 0⟩]
        ⟨Store.empty, 0⟩).map (fun r => r.1.total_synced)) = .ok 1 ∧
    ((syncSpecOrdered noFail apiC6 pgcrC6 "m" 3 "n" [⟨"c1", 0⟩]
        ⟨Store.empty, 0⟩).map (fun r => r.1.total_synced)) = .ok 2 := by
  constructor
  · rfl
  · rfl

end Dcli
